import Mathlib

/-!
Verification development for the refactor-discord-bot ingestion pipeline.

The definitions below are a shallow embedding of the TypeScript sources:
URL classification and normalization (src/services/content/content-extractor.ts),
the YouTube extractor (src/services/content/youtube-extractor.ts), the metadata
synthesizer response handling (src/services/claude/client.ts), the tag resolver
(src/features/recommendations/config/library-tags.ts), the forum poster tag
assembly (src/features/recommendations/services/forum-poster.ts), the
recommendation store (src/services/database/recommendations.ts), the message
processor (src/features/recommendations/services/processor.ts), the bulk import
script (src/scripts/bulk-import.ts, src/scripts/utils/synthetic-id.ts) and the
URL extraction utility (src/utils/url-extractor.ts).

External effects (YouTube info API, transcript API, the model completion call,
the forum post creation) are passed in as oracle functions; machine-level
library calls (WHATWG URL parsing, JSON.parse, SHA-256) are modelled by pure
Lean functions of the same observable behaviour on the inputs the claims use.
-/

namespace RefactorBot

/-! ## Character-list string primitives

JavaScript string predicates used by the sources, modelled over `List Char`.
-/

/-- Boolean prefix test on character lists. -/
def isPrefixL : List Char → List Char → Bool
  | [], _ => true
  | _ :: _, [] => false
  | p :: ps, h :: hs => if p = h then isPrefixL ps hs else false

/-- Model of JS `haystack.includes(pat)`: `pat` occurs as a contiguous
substring. The pattern is the first argument. -/
def hasSubstrL (pat : List Char) : List Char → Bool
  | [] => isPrefixL pat []
  | h :: t => isPrefixL pat (h :: t) || hasSubstrL pat t

/-- Model of JS `s.includes(pat)`. -/
def strIncludes (s pat : String) : Bool := hasSubstrL pat.data s.data

/-- Model of JS `s.startsWith(p)`. -/
def strStartsWith (s p : String) : Bool := isPrefixL p.data s.data

/-- Model of JS `s.toLowerCase()` (ASCII range, which is all the sources use). -/
def toLowerStr (s : String) : String := String.mk (s.data.map Char.toLower)

/-- Split a character list on every occurrence of `c`
(model of JS `String.prototype.split` with a single-character separator). -/
def splitOnCharL (c : Char) : List Char → List (List Char)
  | [] => [[]]
  | h :: t =>
    if h = c then [] :: splitOnCharL c t
    else
      match splitOnCharL c t with
      | [] => [[h]]
      | g :: gs => (h :: g) :: gs

/-- Split at the first occurrence of `c`; `none` when `c` does not occur. -/
def splitFirstCharL (c : Char) : List Char → Option (List Char × List Char)
  | [] => none
  | h :: t =>
    if h = c then some ([], t)
    else (splitFirstCharL c t).map (fun p => (h :: p.1, p.2))

/-- Take characters until one of `stops` is hit; returns (taken, rest). -/
def takeUntilAnyL (stops : List Char) : List Char → List Char × List Char
  | [] => ([], [])
  | h :: t =>
    if h ∈ stops then ([], h :: t)
    else
      let p := takeUntilAnyL stops t
      (h :: p.1, p.2)

/-- Split at the first occurrence of the substring `pat`;
returns (before, after-the-pattern), `none` when `pat` does not occur. -/
def splitFirstSubstrL (pat : List Char) : List Char → Option (List Char × List Char)
  | [] => if isPrefixL pat [] then some ([], []) else none
  | h :: t =>
    if isPrefixL pat (h :: t) then some ([], (h :: t).drop pat.length)
    else (splitFirstSubstrL pat t).map (fun p => (h :: p.1, p.2))

/-- Hexadecimal digit value. -/
def hexVal (c : Char) : Option Nat :=
  if decide ('0' ≤ c) && decide (c ≤ '9') then some (c.toNat - '0'.toNat)
  else if decide ('a' ≤ c) && decide (c ≤ 'f') then some (c.toNat - 'a'.toNat + 10)
  else if decide ('A' ≤ c) && decide (c ≤ 'F') then some (c.toNat - 'A'.toNat + 10)
  else none

/-- Model of the percent-decoding performed by `URLSearchParams`
(`%XY` becomes the byte `XY`, `+` becomes a space, malformed escapes pass
through verbatim). -/
def percentDecodeL : List Char → List Char
  | [] => []
  | '+' :: t => ' ' :: percentDecodeL t
  | '%' :: a :: b :: t =>
    match hexVal a, hexVal b with
    | some hi, some lo => Char.ofNat (16 * hi + lo) :: percentDecodeL t
    | _, _ => '%' :: percentDecodeL (a :: b :: t)
  | h :: t => h :: percentDecodeL t

/-! ## WHATWG URL model

The sources call `new URL(url)` and read `hostname`, `pathname` and
`searchParams`. The model below reproduces that behaviour on the URL
shapes the pipeline handles: parsing fails exactly when the string has no
`scheme://` head or an empty host, mirroring the `try/catch` blocks around
every `new URL` call in the sources.
-/

structure UrlObj where
  scheme : String
  hostname : String
  pathname : String
  search : String
  deriving Repr, DecidableEq

/-- ASCII letter test. -/
def isAlphaChar (c : Char) : Bool :=
  (decide ('a' ≤ c) && decide (c ≤ 'z')) || (decide ('A' ≤ c) && decide (c ≤ 'Z'))

/-- Characters allowed in a URL scheme. -/
def isSchemeChar (c : Char) : Bool :=
  isAlphaChar c || (decide ('0' ≤ c) && decide (c ≤ '9')) || c == '+' || c == '-' || c == '.'

/-- Model of `new URL(url)` for `scheme://host/path?query`-shaped inputs:
split at the first `://`, validate the scheme, take the authority up to
`/`, `?` or `#`, require a non-empty host, and keep path and query
characters verbatim; `none` models the constructor throwing. WHATWG
behaviours outside this shape are not modelled: opaque-path URLs
(`scheme:path` without slashes), the slash tolerance of special schemes
(`https:///x`), percent-encoding of path characters (space becomes `%20`),
and port or userinfo handling. The matchers below read only the hostname
of ordinary `scheme://host` URLs, and the idempotence analysis of
`normalizeUrl` is confined by `urlTame` to inputs on which this model and
`new URL` agree. -/
def parseUrl (url : String) : Option UrlObj :=
  match splitFirstSubstrL "://".data url.data with
  | none => none
  | some (schemeL, rest) =>
    match schemeL with
    | [] => none
    | c0 :: cs =>
      if isAlphaChar c0 && (c0 :: cs).all isSchemeChar then
        let auth := takeUntilAnyL ['/', '?', '#'] rest
        let hostL := (takeUntilAnyL [':'] auth.1).1
        if hostL = [] then none
        else
          let noFrag := (takeUntilAnyL ['#'] auth.2).1
          let pq :=
            match splitFirstCharL '?' noFrag with
            | some p => p
            | none => (noFrag, [])
          some
            { scheme := String.mk ((c0 :: cs).map Char.toLower)
              hostname := String.mk (hostL.map Char.toLower)
              pathname := if pq.1 = [] then "/" else String.mk pq.1
              search := String.mk pq.2 }
      else none

/-- Query-string key/value pairs with percent-decoding
(model of `URLSearchParams` iteration). -/
def queryPairs (search : String) : List (String × String) :=
  (splitOnCharL '&' search.data).filterMap fun piece =>
    if piece = [] then none
    else
      match splitFirstCharL '=' piece with
      | some p => some (String.mk (percentDecodeL p.1), String.mk (percentDecodeL p.2))
      | none => some (String.mk (percentDecodeL piece), "")

/-- Model of `url.searchParams.get(key)`. -/
def searchParamsGet (u : UrlObj) (key : String) : Option String :=
  ((queryPairs u.search).find? (fun kv => kv.1 == key)).map (·.2)

/-- Model of `url.pathname.split('/').pop()`. -/
def pathLastSegment (u : UrlObj) : String :=
  String.mk ((splitOnCharL '/' u.pathname.data).getLastD [])

/-! ## Extraction coordinator: URL normalization and routing
(src/services/content/content-extractor.ts)
-/

/-- The guard of the YouTube branch of `ContentExtractor.normalizeUrl`:
the raw string contains a video-platform marker. -/
def ytBranch (url : String) : Bool :=
  strIncludes url "youtube.com" || strIncludes url "youtu.be"

/-- The video id chosen by `normalizeUrl`:
`urlObj.searchParams.get('v') || urlObj.pathname.split('/').pop()`
(a present-but-empty `v` parameter is falsy in JS and falls back to the
path segment). -/
def videoIdOf (u : UrlObj) : String :=
  match searchParamsGet u "v" with
  | some s => if s = "" then pathLastSegment u else s
  | none => pathLastSegment u

/-- The protocol-defaulting tail of `normalizeUrl`. -/
def ensureProtocol (url : String) : String :=
  if strStartsWith url "http://" || strStartsWith url "https://" then url
  else "https://" ++ url

/-- Model of `ContentExtractor.normalizeUrl`. A parse failure inside the
YouTube branch lands in the surrounding `catch`, which returns the input
unchanged. -/
def normalizeUrl (url : String) : String :=
  if ytBranch url then
    match parseUrl url with
    | none => url
    | some u =>
      let vid := videoIdOf u
      if vid = "" then ensureProtocol url
      else "https://www.youtube.com/watch?v=" ++ vid
  else ensureProtocol url

/-! ## YouTube extractor (src/services/content/youtube-extractor.ts) -/

/-- Characters that terminate the video-id capture group
`[^&\n?#]+` of the first pattern in `extractVideoId`. -/
def nonIdStop (c : Char) : Bool := c == '&' || c == '\n' || c == '?' || c == '#'

/-- Try one alternative of the first `extractVideoId` pattern at the head of
`l`: the literal head `pat` followed by a non-empty run of non-stop
characters (the capture group). -/
def tryIdPre (pat l : List Char) : Option (List Char) :=
  if isPrefixL pat l then
    let cap := (l.drop pat.length).takeWhile (fun c => !nonIdStop c)
    if cap = [] then none else some cap
  else none

/-- Try the three alternatives of the first `extractVideoId` pattern at the
head of `l`, in the order they appear in the regex. -/
def matchIdAt (l : List Char) : Option (List Char) :=
  (tryIdPre "youtube.com/watch?v=".data l).orElse fun _ =>
    (tryIdPre "youtu.be/".data l).orElse fun _ =>
      tryIdPre "youtube.com/embed/".data l

/-- Scan for the leftmost match of the first `extractVideoId` pattern. -/
def findIdScan : List Char → Option (List Char)
  | [] => none
  | h :: t =>
    match matchIdAt (h :: t) with
    | some v => some v
    | none => findIdScan t

/-- Character class of the second `extractVideoId` pattern
`^([a-zA-Z0-9_-]{11})$`. -/
def isIdChar (c : Char) : Bool :=
  isAlphaChar c || (decide ('0' ≤ c) && decide (c ≤ '9')) || c == '_' || c == '-'

/-- Model of `extractVideoId` (youtube-extractor.ts): the URL-shaped pattern
first, then the bare-11-character-id pattern. -/
def extractVideoId (url : String) : Option String :=
  match findIdScan url.data with
  | some v => some (String.mk v)
  | none =>
    if url.data.length = 11 && url.data.all isIdChar then some url else none

/-- Model of `YouTubeExtractor.isYouTubeUrl`. -/
def isYouTubeUrl (url : String) : Bool :=
  strIncludes url "youtube.com" || strIncludes url "youtu.be" ||
    (extractVideoId url).isSome

/-! ## Hostname-based URL matchers of the other extractors -/

/-- Domain list of `AudiobookExtractor.isAudiobookUrl`. -/
def audiobookDomains : List String :=
  ["audible.com", "audible.ca", "audible.co.uk", "audible.de", "audible.fr",
   "audible.com.au", "libro.fm", "audiobooks.com", "scribd.com", "kobo.com",
   "downpour.com", "audiobooksnow.com", "chirpbooks.com", "hoopla.com",
   "everand.com"]

/-- Model of `AudiobookExtractor.isAudiobookUrl` (parse failure gives false). -/
def isAudiobookUrl (url : String) : Bool :=
  match parseUrl url with
  | some u => audiobookDomains.any (fun d => strIncludes u.hostname d)
  | none => false

/-- Domain list of `PodcastExtractor.isPodcastUrl`. -/
def podcastDomains : List String :=
  ["pca.st", "podcasts.apple.com", "podcasts.google.com", "overcast.fm",
   "pocketcasts.com", "castbox.fm", "podcastaddict.com", "player.fm",
   "tunein.com", "stitcher.com", "podbean.com", "anchor.fm", "buzzsprout.com",
   "simplecast.com", "transistor.fm", "spotify.com", "open.spotify.com"]

/-- Model of `PodcastExtractor.isPodcastUrl`. -/
def isPodcastUrl (url : String) : Bool :=
  match parseUrl url with
  | some u => podcastDomains.any (fun d => strIncludes u.hostname d)
  | none => false

/-- Excluded-domain list of `ArticleExtractor.isArticleUrl`. -/
def excludedArticleDomains : List String :=
  ["youtube.com", "youtu.be", "spotify.com", "twitter.com", "x.com",
   "facebook.com", "instagram.com", "tiktok.com"]

/-- Model of `ArticleExtractor.isArticleUrl`. -/
def isArticleUrl (url : String) : Bool :=
  match parseUrl url with
  | some u => !excludedArticleDomains.any (fun d => strIncludes u.hostname d)
  | none => false

/-! ## Content envelope (src/services/content/types.ts) -/

inductive ContentType
  | youtube | book | article | podcast | audiobook | other
  deriving Repr, DecidableEq

structure ContentMetadata where
  author : Option String := none
  channelName : Option String := none
  duration : Option Nat := none
  viewCount : Option Nat := none
  description : Option String := none
  thumbnail : Option String := none
  publishedTime : Option String := none
  transcribed : Option Bool := none
  deriving Repr, DecidableEq

structure ExtractedContent where
  type : ContentType
  title : String
  content : String
  url : String
  metadata : ContentMetadata
  deriving Repr, DecidableEq

/-- The single error taxonomy of the extraction layer:
`contentExtraction` is `ContentExtractionError`, `other` is any other thrown
value, which the coordinator wraps. -/
inductive ExtractErr
  | contentExtraction (message url : String)
  | other (message : String)
  deriving Repr, DecidableEq

/-! ## YouTube extractor body -/

/-- The `info.basic_info` fields the extractor reads. -/
structure VideoBasicInfo where
  title : Option String := none
  author : Option String := none
  channelName : Option String := none
  duration : Option Nat := none
  viewCount : Option Nat := none
  shortDescription : Option String := none
  thumbnailUrl : Option String := none
  publishDate : Option String := none
  deriving Repr, DecidableEq

/-- JS `x || fallback` on an optional string (empty string is falsy). -/
def orFalsy (o : Option String) (fb : String) : String :=
  match o with
  | some s => if s = "" then fb else s
  | none => fb

/-- JS template interpolation of a possibly-undefined value. -/
def optStr (o : Option String) : String :=
  match o with
  | some s => s
  | none => "undefined"

/-- Model of `YouTubeExtractor.extract`. The `getInfo` oracle models
`client.getInfo(videoId)` (error = the call throwing, wrapped by the outer
catch). The `getTranscript` oracle models `info.getTranscript()`:
`Except.error` is the call throwing, `Except.ok none` is a response without
`initial_segments`, and `Except.ok (some segs)` is a transcript whose
segment texts are `segs`. The local `transcribed` flag is initialised to
`false` and — exactly as in the source — never set on the successful
transcript path; only the fallback path assigns it (to `false` again). -/
def youtubeExtract
    (getInfo : String → Except String VideoBasicInfo)
    (getTranscript : String → Except String (Option (List String)))
    (url : String) : Except ExtractErr ExtractedContent :=
  match extractVideoId url with
  | none => Except.error (ExtractErr.contentExtraction "Invalid YouTube URL" url)
  | some videoId =>
    match getInfo videoId with
    | Except.error e =>
        Except.error
          (ExtractErr.contentExtraction ("Failed to extract YouTube content: " ++ e) url)
    | Except.ok info =>
      let metadata : ContentMetadata :=
        { author := info.author
          channelName := info.channelName
          duration := info.duration
          viewCount := info.viewCount
          description := info.shortDescription
          thumbnail := info.thumbnailUrl
          publishedTime := info.publishDate }
      let transcribed := false
      let title := orFalsy info.title ("YouTube Video " ++ videoId)
      match getTranscript videoId with
      | Except.ok (some segs) =>
          Except.ok
            { type := ContentType.youtube
              title := title
              content := String.intercalate " " segs
              url := url
              metadata := { metadata with transcribed := some transcribed } }
      | _ =>
          Except.ok
            { type := ContentType.youtube
              title := title
              content :=
                orFalsy info.shortDescription
                  ("Video: " ++ optStr info.title ++ "\nChannel: " ++
                    optStr info.channelName ++ "\nDescription not available.")
              url := url
              metadata := { metadata with transcribed := some false } }

/-! ## Extraction coordinator routing (ContentExtractor.extract) -/

inductive Route
  | youtube | audiobook | podcast | article
  deriving Repr, DecidableEq

/-- One oracle per concrete extractor (each models the corresponding
`extractor.extract(normalizedUrl)` network call). -/
structure ExtractorOracles where
  youtube : String → Except ExtractErr ExtractedContent
  audiobook : String → Except ExtractErr ExtractedContent
  podcast : String → Except ExtractErr ExtractedContent
  article : String → Except ExtractErr ExtractedContent

/-- The routing chain of `ContentExtractor.extract`. The final two source
branches (`isArticleUrl` matches, and the unknown-type fallback) both call
`articleExtractor.extract`, so both map to `Route.article`. -/
def routeOf (normalizedUrl : String) : Route :=
  if isYouTubeUrl normalizedUrl then Route.youtube
  else if isAudiobookUrl normalizedUrl then Route.audiobook
  else if isPodcastUrl normalizedUrl then Route.podcast
  else Route.article

def runRoute (o : ExtractorOracles) : Route → String → Except ExtractErr ExtractedContent
  | Route.youtube, u => o.youtube u
  | Route.audiobook, u => o.audiobook u
  | Route.podcast, u => o.podcast u
  | Route.article, u => o.article u

/-- The catch block of `ContentExtractor.extract`: a `ContentExtractionError`
is rethrown unchanged, anything else is wrapped with the original `url`. -/
def wrapErr (url : String) : ExtractErr → ExtractErr
  | ExtractErr.contentExtraction m u => ExtractErr.contentExtraction m u
  | ExtractErr.other m => ExtractErr.contentExtraction ("Failed to extract content: " ++ m) url

/-- Model of `ContentExtractor.extract`. Besides the result it returns the
list of extractor invocations made, in order, so that fallback behaviour is
observable. -/
def coordinatorExtract (o : ExtractorOracles) (url : String) :
    Except ExtractErr ExtractedContent × List Route :=
  match runRoute o (routeOf (normalizeUrl url)) (normalizeUrl url) with
  | Except.ok env => (Except.ok env, [routeOf (normalizeUrl url)])
  | Except.error e => (Except.error (wrapErr url e), [routeOf (normalizeUrl url)])

/-! ## Library tag vocabularies
(src/features/recommendations/config/library-tags.ts)
-/

inductive LibraryType
  | fiction | athenaeum | growth
  deriving Repr, DecidableEq

structure LibraryTagConfig where
  name : String
  emoji : String
  synonyms : List String
  deriving Repr, DecidableEq

/-- Fiction Vault tags (20 total). -/
def FICTION_VAULT_TAGS : List LibraryTagConfig :=
  [⟨"Novel/Book", "📖", ["novel", "book", "fiction book", "literature", "story", "narrative"]⟩,
   ⟨"Movie/Series", "🎬", ["movie", "film", "series", "show", "tv show", "television", "cinema", "streaming"]⟩,
   ⟨"Audio Drama", "🎭", ["audio drama", "radio drama", "fiction podcast", "narrative podcast", "audio story"]⟩,
   ⟨"Comic/Manga", "📚", ["comic", "manga", "graphic novel", "comic book", "webcomic", "manhwa"]⟩,
   ⟨"Fantasy", "🧙", ["fantasy", "high fantasy", "magic", "wizards", "dragons", "epic fantasy", "urban fantasy"]⟩,
   ⟨"Sci-Fi", "🚀", ["sci-fi", "science fiction", "space", "cyberpunk", "dystopia", "futuristic", "aliens"]⟩,
   ⟨"Horror", "👻", ["horror", "supernatural", "psychological horror", "thriller horror", "scary", "terror"]⟩,
   ⟨"Thriller/Mystery", "🔍", ["thriller", "mystery", "crime", "suspense", "detective", "whodunit", "noir"]⟩,
   ⟨"Romance", "💕", ["romance", "love story", "contemporary romance", "historical romance", "romantic"]⟩,
   ⟨"Historical Fic", "⏳", ["historical fiction", "historical", "period piece", "past", "historical drama"]⟩,
   ⟨"Comedy/Satire", "😂", ["comedy", "satire", "humor", "funny", "humorous", "parody", "stand-up"]⟩,
   ⟨"Drama/Lit", "🎭", ["drama", "literary fiction", "serious", "character study", "literary"]⟩,
   ⟨"Classics", "📜", ["classics", "classic literature", "canonical", "pre-1950", "timeless"]⟩,
   ⟨"Young Adult", "🌟", ["young adult", "ya", "teen", "coming of age", "adolescent"]⟩,
   ⟨"Mythology/Lore", "⚔️", ["mythology", "myth", "lore", "legend", "folklore", "mythological"]⟩,
   ⟨"Art/Animation", "🎨", ["art", "animation", "visual", "animated", "art book", "illustrated"]⟩,
   ⟨"Fast Paced", "⚡", ["fast paced", "page-turner", "action-packed", "thrilling", "intense", "gripping"]⟩,
   ⟨"Slow Burn", "🕯️", ["slow burn", "atmospheric", "slow-paced", "contemplative", "gradual"]⟩,
   ⟨"Emotional", "😢", ["emotional", "tear-jerker", "moving", "heartbreaking", "touching", "poignant"]⟩,
   ⟨"Masterpiece", "⭐", ["masterpiece", "perfect", "10/10", "must-read", "must-watch", "essential", "classic"]⟩]

/-- Athenaeum tags (20 total). -/
def ATHENAEUM_TAGS : List LibraryTagConfig :=
  [⟨"Book", "📕", ["non-fiction book", "nonfiction", "educational book", "informative book"]⟩,
   ⟨"Podcast", "🎙️", ["educational podcast", "interview", "talk show", "discussion", "conversation"]⟩,
   ⟨"Essay/Paper", "📄", ["essay", "paper", "article", "academic", "long-read", "publication"]⟩,
   ⟨"Documentary", "🎥", ["documentary", "doc", "educational video", "nonfiction film", "informative video"]⟩,
   ⟨"History", "🏛️", ["history", "historical", "ancient", "modern history", "past events", "civilization"]⟩,
   ⟨"Philosophy", "🤔", ["philosophy", "ethics", "logic", "existentialism", "metaphysics", "philosophical"]⟩,
   ⟨"Psychology", "🧠", ["psychology", "behavior", "mind", "cognitive", "mental processes", "psychological"]⟩,
   ⟨"Politics/Society", "🏛️", ["politics", "society", "current events", "sociology", "social issues", "government"]⟩,
   ⟨"Anthropology", "🌍", ["anthropology", "culture", "cultures", "religion", "human societies", "ethnography"]⟩,
   ⟨"Hard Science", "🔬", ["science", "physics", "biology", "chemistry", "mathematics", "nature", "scientific"]⟩,
   ⟨"True Crime", "🔪", ["true crime", "crime", "investigative journalism", "murder", "criminal justice"]⟩,
   ⟨"Biography", "👤", ["biography", "memoir", "autobiography", "life story", "biographical"]⟩,
   ⟨"Literature Analysis", "📖", ["literature analysis", "literary criticism", "book analysis", "literary theory"]⟩,
   ⟨"Art History", "🖼️", ["art history", "art", "artistic movements", "artists", "visual arts"]⟩,
   ⟨"Linguistics/Lang", "🗣️", ["linguistics", "language", "languages", "communication", "linguistic"]⟩,
   ⟨"Fringe/Mystery", "👽", ["fringe", "mystery", "unexplained", "paranormal", "conspiracy", "mysterious phenomena"]⟩,
   ⟨"Academic", "🎓", ["academic", "scholarly", "dense", "rigorous", "complex", "technical"]⟩,
   ⟨"Intro/Pop", "📘", ["intro", "introduction", "pop science", "popular", "accessible", "beginner-friendly"]⟩,
   ⟨"Deep Dive", "🕳️", ["deep dive", "long-form", "in-depth", "comprehensive", "thorough", "detailed"]⟩,
   ⟨"Hot Topic", "🔥", ["hot topic", "trending", "current", "debated", "controversial", "topical"]⟩]

/-- Growth Lab tags (20 total). -/
def GROWTH_LAB_TAGS : List LibraryTagConfig :=
  [⟨"Book", "📗", ["manual", "guide", "self-help book", "how-to book", "instructional"]⟩,
   ⟨"Podcast", "🎧", ["tech podcast", "business podcast", "hustle pod", "interview podcast"]⟩,
   ⟨"Video/Course", "🎬", ["tutorial", "course", "video tutorial", "how-to video", "online course", "training"]⟩,
   ⟨"Tool/Resource", "🛠️", ["tool", "resource", "app", "website", "software", "platform", "repository"]⟩,
   ⟨"Tech & Code", "💻", ["tech", "technology", "code", "coding", "programming", "development", "software", "ai"]⟩,
   ⟨"Business/Econ", "💼", ["business", "economics", "startup", "entrepreneurship", "commerce", "economy"]⟩,
   ⟨"Finance", "💰", ["finance", "investing", "investment", "crypto", "personal finance", "money", "wealth"]⟩,
   ⟨"Marketing/Create", "📱", ["marketing", "social media", "content creation", "advertising", "branding", "creator"]⟩,
   ⟨"Productivity", "⚡", ["productivity", "efficiency", "time management", "organization", "gtd", "systems"]⟩,
   ⟨"Leadership", "👔", ["leadership", "management", "soft skills", "team building", "executive", "leadership"]⟩,
   ⟨"Health & Fitness", "💪", ["health", "fitness", "gym", "exercise", "workout", "training", "biohacking", "wellness"]⟩,
   ⟨"Mental Health", "🧘", ["mental health", "mindfulness", "meditation", "therapy", "stress management", "coping"]⟩,
   ⟨"Food/Cooking", "🍳", ["food", "cooking", "nutrition", "diet", "recipes", "culinary", "meal prep"]⟩,
   ⟨"Travel/Digital Nomad", "✈️", ["travel", "digital nomad", "remote work", "nomad", "wanderlust", "adventure"]⟩,
   ⟨"DIY/Home", "🏠", ["diy", "home", "home improvement", "crafts", "handyman", "maker"]⟩,
   ⟨"Style/Design", "👗", ["style", "design", "fashion", "aesthetics", "interior design", "visual design"]⟩,
   ⟨"Beginner", "🌱", ["beginner", "start here", "intro", "basics", "fundamentals", "novice"]⟩,
   ⟨"Advanced", "🚀", ["advanced", "expert", "professional", "sophisticated", "complex", "high-level"]⟩,
   ⟨"Quick Tip", "⏱️", ["quick tip", "short", "brief", "summary", "tldr", "quick win"]⟩,
   ⟨"Gold Standard", "🏆", ["gold standard", "best", "industry standard", "definitive", "authoritative", "top-tier"]⟩]

/-- Model of `LIBRARY_TAGS[libraryType].tags`. -/
def libraryTags : LibraryType → List LibraryTagConfig
  | LibraryType.fiction => FICTION_VAULT_TAGS
  | LibraryType.athenaeum => ATHENAEUM_TAGS
  | LibraryType.growth => GROWTH_LAB_TAGS

/-- Model of `getLibraryTagNames`. -/
def getLibraryTagNames (libraryType : LibraryType) : List String :=
  (libraryTags libraryType).map (·.name)

/-! ## Tag resolver (findMatchingTag) -/

/-- A destination-forum tag as the resolver sees it
(`forumChannel.availableTags` projected to name and id). -/
structure AvailTag where
  name : String
  id : String
  deriving Repr, DecidableEq

/-- The loop body of `findMatchingTag` over `availableTags`, in list order:
skip an already-applied id, skip a tag absent from the library config, then
test name containment in either direction, then synonym containment in
either direction. -/
def findMatchingTagGo (topicLower : String) (libTags : List LibraryTagConfig)
    (alreadyApplied : List String) : List AvailTag → Option AvailTag
  | [] => none
  | tag :: rest =>
    if alreadyApplied.contains tag.id then
      findMatchingTagGo topicLower libTags alreadyApplied rest
    else
      let tagNameLower := toLowerStr tag.name
      match libTags.find? (fun t => toLowerStr t.name == tagNameLower) with
      | none => findMatchingTagGo topicLower libTags alreadyApplied rest
      | some tagConfig =>
        if strIncludes topicLower tagNameLower || strIncludes tagNameLower topicLower then
          some tag
        else if tagConfig.synonyms.any
            (fun syn => strIncludes topicLower syn || strIncludes syn topicLower) then
          some tag
        else findMatchingTagGo topicLower libTags alreadyApplied rest

/-- Model of `findMatchingTag` (library-tags.ts). -/
def findMatchingTag (topic : String) (libraryType : LibraryType)
    (availableTags : List AvailTag) (alreadyApplied : List String) : Option AvailTag :=
  findMatchingTagGo (toLowerStr topic) (libraryTags libraryType) alreadyApplied availableTags

/-- The per-tag predicate implicit in `findMatchingTag`: a not-yet-applied
tag, present in the library config, matching the suggestion by containment
or by synonym. -/
def tagEligible (topicLower : String) (libTags : List LibraryTagConfig)
    (alreadyApplied : List String) (tag : AvailTag) : Bool :=
  !alreadyApplied.contains tag.id &&
    (match libTags.find? (fun t => toLowerStr t.name == toLowerStr tag.name) with
     | none => false
     | some tagConfig =>
       strIncludes topicLower (toLowerStr tag.name) ||
         strIncludes (toLowerStr tag.name) topicLower ||
         tagConfig.synonyms.any
           (fun syn => strIncludes topicLower syn || strIncludes syn topicLower))

/-- Follows the wording of the spec (section 4.5) for comparison with
`findMatchingTag`: matching order is (1) a case-insensitive exact label
match against any configured tag, then (2) substring containment in either
direction between suggestion and configured label, then (3) substring
containment against each label's synonym list; already-applied tags are
skipped throughout. -/
def specFindMatchingTag (topic : String) (libraryType : LibraryType)
    (availableTags : List AvailTag) (alreadyApplied : List String) : Option AvailTag :=
  let topicLower := toLowerStr topic
  let cands := availableTags.filter (fun t => !alreadyApplied.contains t.id)
  match cands.find? (fun t => toLowerStr t.name == topicLower) with
  | some t => some t
  | none =>
    match cands.find?
        (fun t => strIncludes topicLower (toLowerStr t.name) ||
          strIncludes (toLowerStr t.name) topicLower) with
    | some t => some t
    | none =>
      cands.find? fun t =>
        match (libraryTags libraryType).find?
            (fun c => toLowerStr c.name == toLowerStr t.name) with
        | some cfg =>
          cfg.synonyms.any (fun syn => strIncludes topicLower syn || strIncludes syn topicLower)
        | none => false

/-! ## Forum post tag assembly (createForumPost, forum-poster.ts) -/

/-- The secondary-tag loop of `createForumPost`: stop once five tags are
applied, resolve each suggestion against the not-yet-applied tags, and push
the resolved id when it is not already present. -/
def addSecondaryTags (libraryType : LibraryType) (availableTags : List AvailTag) :
    List String → List String → List String
  | applied, [] => applied
  | applied, s :: rest =>
    if applied.length ≥ 5 then applied
    else
      match findMatchingTag s libraryType availableTags applied with
      | some t =>
        if !applied.contains t.id then
          addSecondaryTags libraryType availableTags (applied ++ [t.id]) rest
        else addSecondaryTags libraryType availableTags applied rest
      | none => addSecondaryTags libraryType availableTags applied rest

/-- The `appliedTags` list built by `createForumPost`: the primary tag is
resolved first into the empty list, then the secondary suggestions. -/
def buildAppliedTags (primaryTag : String) (secondaryTags : List String)
    (libraryType : LibraryType) (availableTags : List AvailTag) : List String :=
  let base :=
    match findMatchingTag primaryTag libraryType availableTags [] with
    | some t => [t.id]
    | none => []
  addSecondaryTags libraryType availableTags base secondaryTags

/-! ## Recommendation store
(src/services/database/recommendations.ts over the prisma `recommendations`
table; the column set follows the schema dump in the repository)
-/

structure RecRow where
  id : String
  originalMessageId : String
  originalChannelId : String
  originalContent : String
  recommenderId : String
  recommenderName : String
  url : String
  title : Option String := none
  description : Option String := none
  contentType : Option String := none
  topics : List String := []
  duration : Option String := none
  qualityScore : Option Int := none
  sentiment : Option String := none
  aiSummary : Option String := none
  thumbnail : Option String := none
  libraryType : Option String := none
  primaryTag : Option String := none
  secondaryTags : List String := []
  processed : Bool := false
  processedAt : Option Nat := none
  forumPostId : Option String := none
  forumThreadId : Option String := none
  processingError : Option String := none
  processingAttempts : Nat := 0
  deriving Repr, DecidableEq

/-- The partial update object of `RecommendationService.updateMetadata`.
An outer `none` models a field absent from the update (prisma leaves the
column unchanged); for the nullable columns an inner `none` models an
explicit null. -/
structure MetadataUpdate where
  title : Option String := none
  description : Option String := none
  contentType : Option String := none
  topics : Option (List String) := none
  duration : Option (Option String) := none
  qualityScore : Option Int := none
  sentiment : Option String := none
  aiSummary : Option String := none
  thumbnail : Option (Option String) := none
  libraryType : Option String := none
  primaryTag : Option String := none
  secondaryTags : Option (List String) := none
  deriving Repr, DecidableEq

/-- Row-level effect of `updateMetadata`: overwrite exactly the fields
present in the update object. -/
def applyUpdateMetadata (r : RecRow) (m : MetadataUpdate) : RecRow :=
  { r with
    title := match m.title with | some v => some v | none => r.title
    description := match m.description with | some v => some v | none => r.description
    contentType := match m.contentType with | some v => some v | none => r.contentType
    topics := match m.topics with | some v => v | none => r.topics
    duration := match m.duration with | some v => v | none => r.duration
    qualityScore := match m.qualityScore with | some v => some v | none => r.qualityScore
    sentiment := match m.sentiment with | some v => some v | none => r.sentiment
    aiSummary := match m.aiSummary with | some v => some v | none => r.aiSummary
    thumbnail := match m.thumbnail with | some v => v | none => r.thumbnail
    libraryType := match m.libraryType with | some v => some v | none => r.libraryType
    primaryTag := match m.primaryTag with | some v => some v | none => r.primaryTag
    secondaryTags := match m.secondaryTags with | some v => v | none => r.secondaryTags }

/-- Row-level effect of `markAsProcessed` (`markPublished` in the spec):
set the published flag, the timestamp and both destination-post
identifiers. The source carries no guard against a second invocation. -/
def markAsProcessed (r : RecRow) (forumPostId forumThreadId : String) (now : Nat) : RecRow :=
  { r with
    processed := true
    processedAt := some now
    forumPostId := some forumPostId
    forumThreadId := some forumThreadId }

/-- Row-level effect of `recordError`: store the error string and increment
the attempt counter; every other column is untouched. -/
def recordError (r : RecRow) (e : String) : RecRow :=
  { r with
    processingError := some e
    processingAttempts := r.processingAttempts + 1 }

/-- The store as a whole. -/
structure DbState where
  rows : List RecRow
  deriving Repr, DecidableEq

structure CreateRecData where
  originalMessageId : String
  originalChannelId : String
  originalContent : String
  recommenderId : String
  recommenderName : String
  url : String
  deriving Repr, DecidableEq

/-- Fresh row built by `create` (prisma fills the generated id and the
column defaults; the generated id is modelled as a function of the unique
source-message id). -/
def mkRow (d : CreateRecData) : RecRow :=
  { id := "row-" ++ d.originalMessageId
    originalMessageId := d.originalMessageId
    originalChannelId := d.originalChannelId
    originalContent := d.originalContent
    recommenderId := d.recommenderId
    recommenderName := d.recommenderName
    url := d.url }

/-- Model of `RecommendationService.create`: prisma rejects a duplicate of
the unique `originalMessageId` column. -/
def dbCreate (db : DbState) (d : CreateRecData) : Except String (DbState × RecRow) :=
  if db.rows.any (fun r => r.originalMessageId == d.originalMessageId) then
    Except.error "Unique constraint failed on the fields: (originalMessageId)"
  else
    let row := mkRow d
    Except.ok ({ rows := db.rows ++ [row] }, row)

/-- Model of a prisma `update` by row id. -/
def dbUpdateRow (db : DbState) (rowId : String) (f : RecRow → RecRow) : DbState :=
  { rows := db.rows.map (fun r => if r.id == rowId then f r else r) }

/-- Model of `RecommendationService.findByMessageId`. -/
def findByMessageId (db : DbState) (mid : String) : Option RecRow :=
  db.rows.find? (fun r => r.originalMessageId == mid)

/-! ## URL extraction from message text
(src/utils/url-extractor.ts: `URL_REGEX = /(https?:\/\/[^\s]+)/gi`)
-/

/-- Case-insensitive character comparison (the regex carries the `i` flag). -/
def lowerEq (a b : Char) : Bool := Char.toLower a == Char.toLower b

/-- Case-insensitive prefix test. -/
def isPrefixCI : List Char → List Char → Bool
  | [], _ => true
  | _ :: _, [] => false
  | p :: ps, h :: hs => lowerEq p h && isPrefixCI ps hs

/-- Try to match `https?:\/\/[^\s]+` at the head of `l`; returns
(matched text, rest after the match). The optional `s` is tried greedily
first, as the regex engine does. -/
def matchUrlAt (l : List Char) : Option (List Char × List Char) :=
  let tryTail : List Char → List Char → Option (List Char × List Char) :=
    fun headPart rest =>
      let body := rest.takeWhile (fun c => !c.isWhitespace)
      if body = [] then none
      else some (headPart ++ body, rest.drop body.length)
  if isPrefixCI "https://".data l then
    tryTail (l.take 8) (l.drop 8)
  else if isPrefixCI "http://".data l then
    tryTail (l.take 7) (l.drop 7)
  else none

/-- Fuelled scan for all matches, left to right, resuming after each match
(the semantics of `text.match(regex)` with the `g` flag). -/
def extractURLsAux : Nat → List Char → List (List Char)
  | 0, _ => []
  | _ + 1, [] => []
  | fuel + 1, h :: t =>
    match matchUrlAt (h :: t) with
    | some (m, rest) => m :: extractURLsAux fuel rest
    | none => extractURLsAux fuel t

/-- Model of `extractURLs` (url-extractor.ts). -/
def extractURLs (text : String) : List String :=
  (extractURLsAux (text.data.length + 1) text.data).map String.mk

/-! ## Processor pipeline
(src/features/recommendations/services/processor.ts)
-/

/-- The `RecommendationMetadata` fields the pipeline consumes after a
successful synthesis call. -/
structure SynthMeta where
  title : String
  description : String
  contentType : String
  topics : List String
  duration : Option String
  qualityScore : Int
  sentiment : String
  summary : String
  keyTakeaways : Option (List String) := none
  mainIdeas : Option (List String) := none
  tldr : Option String := none
  libraryType : String := ""
  primaryTag : String := ""
  secondaryTags : List String := []
  deriving Repr, DecidableEq

/-- The update object passed to `updateMetadata` by the processor (and by
the bulk import): title through aiSummary plus the thumbnail; the library
classification columns are not part of this update. -/
def metaToUpdate (m : SynthMeta) (thumbnail : Option String) : MetadataUpdate :=
  { title := some m.title
    description := some m.description
    contentType := some m.contentType
    topics := some m.topics
    duration := some m.duration
    qualityScore := some m.qualityScore
    sentiment := some m.sentiment
    aiSummary := some m.summary
    thumbnail :=
      match thumbnail with
      | some t => some (some t)
      | none => none }

/-- Network boundary of the processor: the coordinator extraction and the
two synthesizer entry points. -/
structure ProcOracles where
  extract : String → Except ExtractErr ExtractedContent
  analyzeContent : ExtractedContent → String → String → Except String SynthMeta
  analyzeUrl : String → String → String → Except String SynthMeta

/-- The submission tuple the processor receives from the chat platform. -/
structure MsgIn where
  id : String
  channelId : String
  content : String
  authorId : String
  authorTag : String
  deriving Repr, DecidableEq

/-- The try/catch chain in the middle of `processRecommendation`: extract,
then content-rich analysis; a `ContentExtractionError` falls back to
URL-only analysis; any other extraction failure propagates; an analysis
failure propagates. Returns the metadata together with the thumbnail kept
from the envelope. -/
def synthOutcome (o : ProcOracles) (msg : MsgIn) (primaryUrl : String) :
    Except String (SynthMeta × Option String) :=
  match o.extract primaryUrl with
  | Except.ok env =>
    (o.analyzeContent env msg.content msg.authorTag).map (fun m => (m, env.metadata.thumbnail))
  | Except.error (ExtractErr.contentExtraction _ _) =>
    (o.analyzeUrl primaryUrl msg.content msg.authorTag).map (fun m => (m, none))
  | Except.error (ExtractErr.other m) => Except.error m

/-- The value `processRecommendation` returns to its caller on success. -/
structure ProcessedRecOut where
  recommendationId : String
  url : String
  meta : SynthMeta
  thumbnail : Option String
  deriving Repr, DecidableEq

/-- Model of `processRecommendation`: take the first extracted URL, skip an
already-stored message, create the row, synthesize, and either record the
metadata or record the error; every failure is swallowed at the outer
boundary into a `none` result. -/
def processRecommendationModel (o : ProcOracles) (db : DbState) (msg : MsgIn) :
    DbState × Option ProcessedRecOut :=
  match extractURLs msg.content with
  | [] => (db, none)
  | primaryUrl :: _ =>
    match findByMessageId db msg.id with
    | some _ => (db, none)
    | none =>
      match dbCreate db
          { originalMessageId := msg.id
            originalChannelId := msg.channelId
            originalContent := msg.content
            recommenderId := msg.authorId
            recommenderName := msg.authorTag
            url := primaryUrl } with
      | Except.error _ => (db, none)
      | Except.ok (db1, row) =>
        match synthOutcome o msg primaryUrl with
        | Except.error e =>
          (dbUpdateRow db1 row.id (fun r => recordError r e), none)
        | Except.ok (m, thumb) =>
          (dbUpdateRow db1 row.id (fun r => applyUpdateMetadata r (metaToUpdate m thumb)),
            some { recommendationId := row.id, url := primaryUrl, meta := m, thumbnail := thumb })

/-! ## Synthetic identity and bulk import
(src/scripts/utils/synthetic-id.ts, src/scripts/bulk-import.ts)
-/

/-- Lower 32 bits. -/
def w32 (n : Nat) : Nat := n % 4294967296

/-- 32-bit right rotation. -/
def rotr32 (x n : Nat) : Nat := w32 ((x >>> n) ||| (x <<< (32 - n)))

/-- SHA-256 round constants. -/
def sha256K : List Nat :=
  [1116352408, 1899447441, 3049323471, 3921009573, 961987163, 1508970993,
   2453635748, 2870763221, 3624381080, 310598401, 607225278, 1426881987,
   1925078388, 2162078206, 2614888103, 3248222580, 3835390401, 4022224774,
   264347078, 604807628, 770255983, 1249150122, 1555081692, 1996064986,
   2554220882, 2821834349, 2952996808, 3210313671, 3336571891, 3584528711,
   113926993, 338241895, 666307205, 773529912, 1294757372, 1396182291,
   1695183700, 1986661051, 2177026350, 2456956037, 2730485921, 2820302411,
   3259730800, 3345764771, 3516065817, 3600352804, 4094571909, 275423344,
   430227734, 506948616, 659060556, 883997877, 958139571, 1322822218,
   1537002063, 1747873779, 1955562222, 2024104815, 2227730452, 2361852424,
   2428436474, 2756734187, 3204031479, 3329325298]

/-- UTF-8 encoding of one character. -/
def charUtf8 (c : Char) : List Nat :=
  let n := c.toNat
  if n < 0x80 then [n]
  else if n < 0x800 then [0xC0 ||| (n >>> 6), 0x80 ||| (n &&& 0x3F)]
  else if n < 0x10000 then
    [0xE0 ||| (n >>> 12), 0x80 ||| ((n >>> 6) &&& 0x3F), 0x80 ||| (n &&& 0x3F)]
  else
    [0xF0 ||| (n >>> 18), 0x80 ||| ((n >>> 12) &&& 0x3F),
     0x80 ||| ((n >>> 6) &&& 0x3F), 0x80 ||| (n &&& 0x3F)]

/-- SHA-256 padding of a byte list. -/
def sha256pad (bytes : List Nat) : List Nat :=
  let ml := 8 * bytes.length
  let zeros := (119 - bytes.length % 64) % 64
  bytes ++ [0x80] ++ List.replicate zeros 0 ++
    ((List.range 8).reverse.map (fun i => (ml >>> (8 * i)) &&& 0xFF))

/-- Split a byte list into 64-byte blocks (fuelled). -/
def chunks64 : Nat → List Nat → List (List Nat)
  | 0, _ => []
  | _ + 1, [] => []
  | fuel + 1, l => l.take 64 :: chunks64 fuel (l.drop 64)

/-- Initial 16 words of the message schedule, big-endian. -/
def blockWords (block : List Nat) : Array Nat :=
  ((List.range 16).map fun i =>
    (block.getD (4 * i) 0 <<< 24) ||| (block.getD (4 * i + 1) 0 <<< 16) |||
      (block.getD (4 * i + 2) 0 <<< 8) ||| block.getD (4 * i + 3) 0).toArray

/-- Extended 64-word message schedule. -/
def sha256schedule (block : List Nat) : Array Nat :=
  (List.range 48).foldl
    (fun ws j =>
      let i := j + 16
      let w15 := ws.getD (i - 15) 0
      let w2 := ws.getD (i - 2) 0
      let s0 := rotr32 w15 7 ^^^ rotr32 w15 18 ^^^ (w15 >>> 3)
      let s1 := rotr32 w2 17 ^^^ rotr32 w2 19 ^^^ (w2 >>> 10)
      ws.push (w32 (ws.getD (i - 16) 0 + s0 + ws.getD (i - 7) 0 + s1)))
    (blockWords block)

/-- One SHA-256 compression over a block. -/
def sha256compress (h : List Nat) (block : List Nat) : List Nat :=
  let ws := sha256schedule block
  let st :=
    (List.range 64).foldl
      (fun st i =>
        let (a, b, c, d, e, f, g, hh) := st
        let s1 := rotr32 e 6 ^^^ rotr32 e 11 ^^^ rotr32 e 25
        let ch := (e &&& f) ^^^ ((0xFFFFFFFF ^^^ e) &&& g)
        let t1 := w32 (hh + s1 + ch + sha256K.getD i 0 + ws.getD i 0)
        let s0 := rotr32 a 2 ^^^ rotr32 a 13 ^^^ rotr32 a 22
        let mj := (a &&& b) ^^^ (a &&& c) ^^^ (b &&& c)
        let t2 := w32 (s0 + mj)
        (w32 (t1 + t2), a, b, c, w32 (d + t1), e, f, g))
      (h.getD 0 0, h.getD 1 0, h.getD 2 0, h.getD 3 0,
       h.getD 4 0, h.getD 5 0, h.getD 6 0, h.getD 7 0)
  let (a, b, c, d, e, f, g, hh) := st
  [w32 (h.getD 0 0 + a), w32 (h.getD 1 0 + b), w32 (h.getD 2 0 + c),
   w32 (h.getD 3 0 + d), w32 (h.getD 4 0 + e), w32 (h.getD 5 0 + f),
   w32 (h.getD 6 0 + g), w32 (h.getD 7 0 + hh)]

/-- Lower-case hexadecimal digit. -/
def hexDigit (n : Nat) : Char :=
  if n < 10 then Char.ofNat ('0'.toNat + n) else Char.ofNat ('a'.toNat + n - 10)

/-- Eight-hex-digit rendering of a 32-bit word. -/
def toHex8 (n : Nat) : String :=
  String.mk ((List.range 8).map fun i => hexDigit ((n >>> (4 * (7 - i))) &&& 0xF))

/-- Model of node `createHash('sha256').update(s).digest('hex')`. -/
def sha256hex (s : String) : String :=
  let bytes := sha256pad (s.data.flatMap charUtf8)
  let blocks := chunks64 (bytes.length + 1) bytes
  let h0 := [1779033703, 3144134277, 1013904242, 2773480762,
             1359893119, 2600822924, 528734635, 1541459225]
  String.join ((blocks.foldl sha256compress h0).map toHex8)

/-- Model of JS `s.trim()` (over the whitespace characters the inputs use). -/
def trimStr (s : String) : String :=
  String.mk (((s.data.dropWhile Char.isWhitespace).reverse.dropWhile Char.isWhitespace).reverse)

/-- Model of `generateSyntheticMessageId`: trim, lower-case, hash, keep the
first sixteen hex characters behind a `bulk-` marker. -/
def generateSyntheticMessageId (url : String) : String :=
  "bulk-" ++ (sha256hex (toLowerStr (trimStr url))).take 16

/-- Network boundary of the bulk-import `processUrl`: the combined
extract-and-analyze step (with its internal URL-only fallback) and the
forum-post creation. -/
structure BulkOracles where
  analyze : String → Except String (SynthMeta × Option String)
  post : String → Except String (String × String)

/-- Model of `readUrlsFromFile`: trim every line, drop blanks and comment
lines. -/
def readImportLines (lines : List String) : List String :=
  (lines.map trimStr).filter (fun l => l != "" && !strStartsWith l "#")

/-- Model of the bulk-import `processUrl`: create the row (prisma rejects a
duplicate identity), analyze, store the metadata, create the forum post and
mark the row processed. Returns the evolved store and, on failure, the
error message; rows written before the failing step stay written, as in the
source (there is no transaction). -/
def bulkProcessUrl (o : BulkOracles) (db : DbState) (url messageId : String) :
    DbState × Option String :=
  match dbCreate db
      { originalMessageId := messageId
        originalChannelId := "recommendations-channel"
        originalContent := "Bulk import: " ++ url
        recommenderId := "bulk-import"
        recommenderName := "Bulk Import"
        url := url } with
  | Except.error e => (db, some e)
  | Except.ok (db1, row) =>
    match o.analyze url with
    | Except.error e => (db1, some e)
    | Except.ok (m, thumb) =>
      let db2 := dbUpdateRow db1 row.id (fun r => applyUpdateMetadata r (metaToUpdate m thumb))
      match o.post url with
      | Except.error e => (db2, some e)
      | Except.ok (postId, threadId) =>
        (dbUpdateRow db2 row.id (fun r => markAsProcessed r postId threadId 0), none)

/-- The sequential processing loop of `runBulkImport`: an error on one URL
is caught, the URL is appended to the failed list, and the loop continues. -/
def bulkLoop (o : BulkOracles) :
    DbState → List (String × String) → Nat → List String → DbState × Nat × List String
  | db, [], okCount, failed => (db, okCount, failed)
  | db, (url, mid) :: rest, okCount, failed =>
    match bulkProcessUrl o db url mid with
    | (db2, none) => bulkLoop o db2 rest (okCount + 1) failed
    | (db2, some _) => bulkLoop o db2 rest okCount (failed ++ [url])

structure BulkResult where
  db : DbState
  total : Nat
  processedCount : Nat
  skippedDuplicates : Nat
  failedUrls : List String
  deriving Repr, DecidableEq

/-- Model of `runBulkImport`: generate synthetic identities, bulk-check
identities and URLs against the store once, filter the duplicates out, then
process the survivors sequentially. -/
def runBulkImportModel (o : BulkOracles) (db0 : DbState) (lines : List String) : BulkResult :=
  let urls := readImportLines lines
  let urlsWithIds := urls.map (fun u => (u, generateSyntheticMessageId u))
  let existingIds := db0.rows.map (·.originalMessageId)
  let existingUrls := db0.rows.map (·.url)
  let toProcess :=
    urlsWithIds.filter (fun p => !(existingIds.contains p.2 || existingUrls.contains p.1))
  let r := bulkLoop o db0 toProcess 0 []
  { db := r.1
    total := urls.length
    processedCount := r.2.1
    skippedDuplicates := urls.length - toProcess.length
    failedUrls := r.2.2 }

/-! ## Metadata synthesizer response handling
(src/services/claude/client.ts: both `analyzeRecommendation` and
`analyzeExtractedContent` run the same acceptance logic —
`content.text.match(/\x7b[\s\S]*\x7d/)` followed by `JSON.parse` — and
return the parsed object cast to `RecommendationMetadata` without any field
validation.)
-/

/-- JSON values as `JSON.parse` produces them. Numbers keep their source
lexeme; no claim inspects numeric values. -/
inductive Json where
  | null
  | bool (b : Bool)
  | num (lexeme : String)
  | str (s : String)
  | arr (elems : List Json)
  | obj (fields : List (String × Json))

/-- The opening brace character. -/
def lbraceC : Char := Char.ofNat 123

/-- The closing brace character. -/
def rbraceC : Char := Char.ofNat 125

/-- JSON whitespace skipping. -/
def skipWs (l : List Char) : List Char :=
  l.dropWhile (fun c => c == ' ' || c == '\t' || c == '\n' || c == '\r')

/-- Body of a JSON string after the opening quote, with the standard escape
set; returns the decoded characters and the rest after the closing quote. -/
def parseStringBody : List Char → Option (List Char × List Char)
  | [] => none
  | '"' :: t => some ([], t)
  | '\\' :: 'u' :: a :: b :: c :: d :: t =>
    match hexVal a, hexVal b, hexVal c, hexVal d with
    | some x1, some x2, some x3, some x4 =>
      (parseStringBody t).map fun p =>
        (Char.ofNat (((x1 * 16 + x2) * 16 + x3) * 16 + x4) :: p.1, p.2)
    | _, _, _, _ => none
  | '\\' :: e :: t =>
    let dec : Option Char :=
      if e == '"' then some '"'
      else if e == '\\' then some '\\'
      else if e == '/' then some '/'
      else if e == 'b' then some (Char.ofNat 8)
      else if e == 'f' then some (Char.ofNat 12)
      else if e == 'n' then some '\n'
      else if e == 'r' then some '\r'
      else if e == 't' then some '\t'
      else none
    match dec with
    | some ch => (parseStringBody t).map fun p => (ch :: p.1, p.2)
    | none => none
  | ch :: t => (parseStringBody t).map fun p => (ch :: p.1, p.2)

/-- A JSON number lexeme: `-?(0|[1-9][0-9]*)(\.[0-9]+)?([eE][+-]?[0-9]+)?`. -/
def parseNumLexeme (l : List Char) : Option (List Char × List Char) :=
  let isDigit : Char → Bool := fun c => decide ('0' ≤ c) && decide (c ≤ '9')
  let (sign, l1) :=
    match l with
    | '-' :: t => (['-'], t)
    | _ => ([], l)
  match l1 with
  | [] => none
  | c :: rest =>
    if !isDigit c then none
    else
      let intPart :=
        if c = '0' then ([c], rest)
        else (c :: rest.takeWhile isDigit, rest.dropWhile isDigit)
      let (frac, l2) :=
        match intPart.2 with
        | '.' :: r =>
          let ds := r.takeWhile isDigit
          if ds = [] then ([], intPart.2) else ('.' :: ds, r.dropWhile isDigit)
        | _ => ([], intPart.2)
      let (ex, l3) :=
        match l2 with
        | e :: r =>
          if e == 'e' || e == 'E' then
            let (s2, r2) :=
              match r with
              | '+' :: rr => (['+'], rr)
              | '-' :: rr => (['-'], rr)
              | _ => ([], r)
            let ds := r2.takeWhile isDigit
            if ds = [] then ([], l2) else (e :: s2 ++ ds, r2.dropWhile isDigit)
          else ([], l2)
        | _ => ([], l2)
      if frac = [] ∧ ex = [] ∧ l2 = intPart.2 ∧ l3 = l2 then
        some (sign ++ intPart.1, l3)
      else some (sign ++ intPart.1 ++ frac ++ ex, l3)

mutual

/-- Fuelled JSON value grammar (model of `JSON.parse`). -/
def parseJsonVal : Nat → List Char → Option (Json × List Char)
  | 0, _ => none
  | fuel + 1, l =>
    match skipWs l with
    | [] => none
    | '"' :: t => (parseStringBody t).map fun p => (Json.str (String.mk p.1), p.2)
    | 't' :: 'r' :: 'u' :: 'e' :: t => some (Json.bool true, t)
    | 'f' :: 'a' :: 'l' :: 's' :: 'e' :: t => some (Json.bool false, t)
    | 'n' :: 'u' :: 'l' :: 'l' :: t => some (Json.null, t)
    | '[' :: t =>
      (match skipWs t with
       | ']' :: t2 => some (Json.arr [], t2)
       | _ => (parseJsonArrItems fuel t).map fun p => (Json.arr p.1, p.2))
    | c :: t =>
      if c = lbraceC then
        match skipWs t with
        | c2 :: t2 =>
          if c2 = rbraceC then some (Json.obj [], t2)
          else (parseJsonObjItems fuel (c2 :: t2)).map fun p => (Json.obj p.1, p.2)
        | [] => none
      else
        (parseNumLexeme (c :: t)).map fun p => (Json.num (String.mk p.1), p.2)

/-- Comma-separated array items up to the closing bracket. -/
def parseJsonArrItems : Nat → List Char → Option (List Json × List Char)
  | 0, _ => none
  | fuel + 1, l =>
    match parseJsonVal fuel l with
    | none => none
    | some (v, rest) =>
      match skipWs rest with
      | ',' :: t => (parseJsonArrItems fuel t).map fun p => (v :: p.1, p.2)
      | ']' :: t => some ([v], t)
      | _ => none

/-- Comma-separated object members up to the closing brace. -/
def parseJsonObjItems : Nat → List Char → Option (List (String × Json) × List Char)
  | 0, _ => none
  | fuel + 1, l =>
    match skipWs l with
    | '"' :: t =>
      match parseStringBody t with
      | none => none
      | some (k, rest) =>
        match skipWs rest with
        | ':' :: t2 =>
          match parseJsonVal fuel t2 with
          | none => none
          | some (v, rest2) =>
            match skipWs rest2 with
            | ',' :: t3 => (parseJsonObjItems fuel t3).map fun p => ((String.mk k, v) :: p.1, p.2)
            | c :: t3 =>
              if c = rbraceC then some ([(String.mk k, v)], t3) else none
            | [] => none
        | _ => none
    | _ => none

end

/-- Model of `JSON.parse` on a whole string: one value plus only trailing
whitespace. -/
def jsonParse (s : String) : Option Json :=
  match parseJsonVal (2 * s.data.length + 4) s.data with
  | some (j, rest) => if skipWs rest = [] then some j else none
  | none => none

/-- Model of the regex `/\x7b[\s\S]*\x7d/` applied to the response text:
greedy, so from the first opening brace to the last closing brace at or
after it. -/
def extractJsonCandidate (text : String) : Option String :=
  match splitFirstCharL lbraceC text.data with
  | none => none
  | some (_, afterOpen) =>
    match splitFirstCharL rbraceC afterOpen.reverse with
    | none => none
    | some (_, revBefore) =>
      some (String.mk (lbraceC :: revBefore.reverse ++ [rbraceC]))

/-- The shared response-acceptance logic of `analyzeRecommendation` and
`analyzeExtractedContent`: fail when no brace-delimited candidate exists,
fail when `JSON.parse` rejects it, and otherwise return the parsed object
verbatim (the source casts it to `RecommendationMetadata` without checking
a single field). -/
def analyzeResponseModel (responseText : String) : Except String Json :=
  match extractJsonCandidate responseText with
  | none => Except.error "No JSON found in Claude response"
  | some cand =>
    match jsonParse cand with
    | none => Except.error "Unexpected token in JSON"
    | some j => Except.ok j

/-- Object field lookup with the last-duplicate-wins rule of `JSON.parse`. -/
def jsonLookup (fields : List (String × Json)) (k : String) : Option Json :=
  (fields.reverse.find? (fun f => f.1 == k)).map (·.2)

/-- A string-valued field of a parsed response object. -/
def jsonStrField (j : Json) (k : String) : Option String :=
  match j with
  | Json.obj fs =>
    match jsonLookup fs k with
    | some (Json.str s) => some s
    | _ => none
  | _ => none

/-! ## Classification of inputs on which normalizeUrl is stable -/

/-- Characters of a video id that survive a query-string round trip: the
canonical form `https://www.youtube.com/watch?v=ID` re-parses to the same
id exactly when the id contains no query delimiter or escape character. -/
def safeIdChar (c : Char) : Bool :=
  !(c == '&' || c == '#' || c == '%' || c == '+')

/-- Characters that WHATWG URL parsing copies verbatim into the path and
query of an http(s) URL: letters, digits, and a few delimiters that no
percent-encode set rewrites. Excluded in particular: space, quote, angle
brackets, backtick and braces (path or query encoded), percent and plus
(escape syntax), ampersand and hash (query and fragment delimiters), colon
and at-sign (port and userinfo), backslash (treated as a slash), and all
whitespace (stripped by the parser). -/
def tameUrlChar (c : Char) : Bool :=
  isAlphaChar c || (decide ('0' ≤ c) && decide (c ≤ '9')) ||
    c == '-' || c == '.' || c == '_' || c == '~' || c == '/' || c == '?' || c == '='

/-- Tame http(s) URLs: an explicit lower-case protocol, not followed by a
further slash (so the special-authority slash skipping of WHATWG cannot
fire), and only `tameUrlChar` characters after it. On these inputs
`new URL` performs a plain `scheme://host/path?query` split with every
path and query character kept verbatim — exactly what `parseUrl` computes
(both fail exactly when the authority is empty); the WHATWG behaviours
`parseUrl` does not model cannot arise, except dot-segment resolution in
the path, which is excluded separately in `normSafe`. -/
def urlTame (u : String) : Bool :=
  (strStartsWith u "http://" && !strStartsWith u "http:///" &&
    (u.data.drop 7).all tameUrlChar) ||
  (strStartsWith u "https://" && !strStartsWith u "https:///" &&
    (u.data.drop 8).all tameUrlChar)

/-- Inputs on which `normalizeUrl` is stable: either the video branch does
not fire at all, or the URL is tame (where the parse model agrees with
`new URL`) and the extracted video id is not a relative dot segment —
WHATWG resolves a trailing `.` or `..` away, the model does not — and
consists of query-round-trip-safe characters (on tame inputs it always
does; the conjunct keeps the condition self-contained). -/
def normSafe (url : String) : Bool :=
  if ytBranch url then
    urlTame url &&
      (match parseUrl url with
       | none => true
       | some u =>
         videoIdOf u != "." && videoIdOf u != ".." && (videoIdOf u).data.all safeIdChar)
  else true

/-! ## Concrete sample data for closed runs of the models -/

/-- A minimal successful extraction envelope, for oracle instantiation. -/
def sampleEnv (url : String) : ExtractedContent :=
  { type := ContentType.article
    title := "Sample Title"
    content := "sample body"
    url := url
    metadata := {} }

/-- A minimal successful synthesis result, for oracle instantiation. -/
def sampleMeta : SynthMeta :=
  { title := "Sample"
    description := "A sample item"
    contentType := "article"
    topics := ["Tech"]
    duration := none
    qualityScore := 7
    sentiment := "positive"
    summary := "A useful sample." }

/-- A completion response whose JSON object carries a primary tag that is
not in the growth-library vocabulary. -/
def c3Response : String :=
  "Here is the classification: \x7b\"libraryType\": \"growth\", \"primaryTag\": \"Underwater Basket Weaving\", \"secondaryTags\": [\"Tech & Code\"]\x7d"

/-- A stored, classified row, for runs of the store operations. -/
def c4Row : RecRow :=
  { id := "row-m1"
    originalMessageId := "m1"
    originalChannelId := "chan-1"
    originalContent := "check https://example.com/a"
    recommenderId := "user-1"
    recommenderName := "User"
    url := "https://example.com/a"
    libraryType := some "fiction"
    primaryTag := some "Fantasy"
    secondaryTags := ["Sci-Fi"] }

/-! ## Helper lemmas on the string primitives -/

theorem isPrefixL_append_self (p t : List Char) : isPrefixL p (p ++ t) = true := by
  induction p with
  | nil => rfl
  | cons c cs ih => simpa [isPrefixL] using ih

theorem isPrefixL_extend (p : List Char) :
    ∀ l t : List Char, isPrefixL p l = true → isPrefixL p (l ++ t) = true := by
  induction p with
  | nil => intro l t _; rfl
  | cons c cs ih =>
    intro l t h
    cases l with
    | nil => simp [isPrefixL] at h
    | cons d ds =>
      rw [List.cons_append]
      simp only [isPrefixL] at h ⊢
      by_cases hcd : c = d
      · rw [if_pos hcd] at h ⊢
        exact ih ds t h
      · rw [if_neg hcd] at h
        exact absurd h (by simp)

theorem hasSubstrL_nil_pat (l : List Char) : hasSubstrL [] l = true := by
  cases l <;> simp [hasSubstrL, isPrefixL]

theorem hasSubstrL_append_right (pat t : List Char) :
    ∀ h : List Char, hasSubstrL pat h = true → hasSubstrL pat (h ++ t) = true := by
  intro h
  induction h with
  | nil =>
    intro hh
    cases pat with
    | nil => exact hasSubstrL_nil_pat t
    | cons p ps => simp [hasSubstrL, isPrefixL] at hh
  | cons x xs ih =>
    intro hh
    rw [List.cons_append]
    simp only [hasSubstrL] at hh ⊢
    rw [Bool.or_eq_true] at hh
    rcases hh with hp | hs
    · have h2 := isPrefixL_extend pat (x :: xs) t hp
      rw [List.cons_append] at h2
      simp [h2]
    · simp [ih hs]

theorem hasSubstrL_cons_of_head_ne {p c : Char} (ps l : List Char) (hne : p ≠ c) :
    hasSubstrL (p :: ps) (c :: l) = hasSubstrL (p :: ps) l := by
  simp [hasSubstrL, isPrefixL, hne]

/-- Prefixing the default protocol cannot create an occurrence of a pattern
that starts with the letter y. -/
theorem hasSubstrL_yplat_prepend (ps l : List Char) :
    hasSubstrL ('y' :: ps) (['h', 't', 't', 'p', 's', ':', '/', '/'] ++ l) =
      hasSubstrL ('y' :: ps) l := by
  show hasSubstrL ('y' :: ps)
      ('h' :: 't' :: 't' :: 'p' :: 's' :: ':' :: '/' :: '/' :: l) = _
  rw [hasSubstrL_cons_of_head_ne ps _ (by decide),
    hasSubstrL_cons_of_head_ne ps _ (by decide),
    hasSubstrL_cons_of_head_ne ps _ (by decide),
    hasSubstrL_cons_of_head_ne ps _ (by decide),
    hasSubstrL_cons_of_head_ne ps _ (by decide),
    hasSubstrL_cons_of_head_ne ps _ (by decide),
    hasSubstrL_cons_of_head_ne ps _ (by decide),
    hasSubstrL_cons_of_head_ne ps _ (by decide)]

theorem ytBranch_prepend_protocol (u : String) :
    ytBranch ("https://" ++ u) = ytBranch u := by
  have h1 : "youtube.com".data = 'y' :: "outube.com".data := rfl
  have h2 : "youtu.be".data = 'y' :: "outu.be".data := rfl
  simp only [ytBranch, strIncludes, String.data_append, h1, h2,
    hasSubstrL_yplat_prepend]

theorem strStartsWith_append_self (p u : String) :
    strStartsWith (p ++ u) p = true := by
  simp only [strStartsWith, String.data_append]
  exact isPrefixL_append_self p.data u.data

theorem ensureProtocol_of_protocol (u : String)
    (h : (strStartsWith u "http://" || strStartsWith u "https://") = true) :
    ensureProtocol u = u := by
  simp [ensureProtocol, h]

theorem takeUntilAnyL_no_stop (stops : List Char) :
    ∀ l : List Char, (∀ c ∈ l, c ∉ stops) → takeUntilAnyL stops l = (l, []) := by
  intro l
  induction l with
  | nil => intro _; rfl
  | cons c t ih =>
    intro h
    have hc : c ∉ stops := h c (List.mem_cons_self c t)
    have ht : ∀ x ∈ t, x ∉ stops := fun x hx => h x (List.mem_cons_of_mem c hx)
    simp [takeUntilAnyL, hc, ih ht]

theorem takeUntilAnyL_append (stops l₂ : List Char) :
    ∀ l₁ : List Char, (∀ c ∈ l₁, c ∉ stops) →
      takeUntilAnyL stops (l₁ ++ l₂) =
        (l₁ ++ (takeUntilAnyL stops l₂).1, (takeUntilAnyL stops l₂).2) := by
  intro l₁
  induction l₁ with
  | nil => intro _; rfl
  | cons c t ih =>
    intro h
    have hc : c ∉ stops := h c (List.mem_cons_self c t)
    have ht : ∀ x ∈ t, x ∉ stops := fun x hx => h x (List.mem_cons_of_mem c hx)
    simp [takeUntilAnyL, hc, ih ht]

theorem splitOnCharL_not_mem (c : Char) :
    ∀ l : List Char, c ∉ l → splitOnCharL c l = [l] := by
  intro l
  induction l with
  | nil => intro _; rfl
  | cons x t ih =>
    intro h
    have hx : x ≠ c := fun hxc => h (hxc ▸ List.mem_cons_self x t)
    have ht : c ∉ t := fun hct => h (List.mem_cons_of_mem x hct)
    simp [splitOnCharL, hx, ih ht]

theorem percentDecodeL_fixed :
    ∀ l : List Char, (∀ c ∈ l, c ≠ '%' ∧ c ≠ '+') → percentDecodeL l = l := by
  intro l
  induction l with
  | nil => intro _; rfl
  | cons c t ih =>
    intro h
    have hc := h c (List.mem_cons_self c t)
    have ht : ∀ x ∈ t, x ≠ '%' ∧ x ≠ '+' := fun x hx => h x (List.mem_cons_of_mem c hx)
    rw [percentDecodeL.eq_def]
    split <;> simp_all

theorem urlTame_protocol (u : String) (h : urlTame u = true) :
    (strStartsWith u "http://" || strStartsWith u "https://") = true := by
  unfold urlTame at h
  rw [Bool.or_eq_true] at h ⊢
  rcases h with h | h <;> rw [Bool.and_eq_true, Bool.and_eq_true] at h
  · exact Or.inl h.1.1
  · exact Or.inr h.1.1

theorem safeIdChar_spec {c : Char} (h : safeIdChar c = true) :
    c ≠ '&' ∧ c ≠ '#' ∧ c ≠ '%' ∧ c ≠ '+' := by
  simp only [safeIdChar, Bool.not_eq_true', Bool.or_eq_false_iff, beq_eq_false_iff_ne] at h
  exact ⟨h.1.1.1, h.1.1.2, h.1.2, h.2⟩

/-- Parsing the canonical video URL built around a fragment-free id. -/
theorem parseUrl_canonical (vid : String) (hhash : '#' ∉ vid.data) :
    parseUrl ("https://www.youtube.com/watch?v=" ++ vid) =
      some ⟨"https", "www.youtube.com", "/watch", String.mk ('v' :: '=' :: vid.data)⟩ := by
  have hsplit : splitFirstSubstrL "://".data ("https://www.youtube.com/watch?v=" ++ vid).data
      = some (['h', 't', 't', 'p', 's'],
          'w' :: 'w' :: 'w' :: '.' :: 'y' :: 'o' :: 'u' :: 't' :: 'u' :: 'b' :: 'e' :: '.' :: 'c' :: 'o' :: 'm' ::
            '/' :: 'w' :: 'a' :: 't' :: 'c' :: 'h' :: '?' :: 'v' :: '=' :: vid.data) := by
    rw [String.data_append]; rfl
  have h4 : takeUntilAnyL ['#'] ('/' :: 'w' :: 'a' :: 't' :: 'c' :: 'h' :: '?' :: 'v' :: '=' :: vid.data)
      = ('/' :: 'w' :: 'a' :: 't' :: 'c' :: 'h' :: '?' :: 'v' :: '=' :: vid.data, []) := by
    have hstep := takeUntilAnyL_append ['#'] vid.data "/watch?v=".data (by decide)
    rw [takeUntilAnyL_no_stop ['#'] vid.data
      (by intro c hc hmem; simp at hmem; exact hhash (hmem ▸ hc))] at hstep
    simpa using hstep
  unfold parseUrl
  rw [hsplit]
  have hauth : takeUntilAnyL ['/', '?', '#']
      ('w' :: 'w' :: 'w' :: '.' :: 'y' :: 'o' :: 'u' :: 't' :: 'u' :: 'b' :: 'e' :: '.' :: 'c' :: 'o' :: 'm' ::
        '/' :: 'w' :: 'a' :: 't' :: 'c' :: 'h' :: '?' :: 'v' :: '=' :: vid.data)
      = (['w','w','w','.','y','o','u','t','u','b','e','.','c','o','m'],
         '/' :: 'w' :: 'a' :: 't' :: 'c' :: 'h' :: '?' :: 'v' :: '=' :: vid.data) := rfl
  simp only [hauth]
  have hhost : takeUntilAnyL [':'] ['w','w','w','.','y','o','u','t','u','b','e','.','c','o','m']
      = (['w','w','w','.','y','o','u','t','u','b','e','.','c','o','m'], ([] : List Char)) := rfl
  simp only [hhost]
  simp only [h4]
  rfl

/-- The canonical URL yields back its own id when the id survives query
parsing. -/
theorem videoIdOf_canonical (vid : String) (hne : vid ≠ "")
    (hamp : '&' ∉ vid.data) (hpct : ∀ c ∈ vid.data, c ≠ '%' ∧ c ≠ '+') :
    videoIdOf ⟨"https", "www.youtube.com", "/watch", String.mk ('v' :: '=' :: vid.data)⟩ = vid := by
  have hq : splitOnCharL '&' ('v' :: '=' :: vid.data) = [('v' :: '=' :: vid.data)] := by
    apply splitOnCharL_not_mem
    intro hmem
    rcases List.mem_cons.mp hmem with h | h
    · exact absurd h (by decide)
    rcases List.mem_cons.mp h with h2 | h2
    · exact absurd h2 (by decide)
    · exact hamp h2
  have hsp : splitFirstCharL '=' ('v' :: '=' :: vid.data) = some (['v'], vid.data) := rfl
  have hget : searchParamsGet
      ⟨"https", "www.youtube.com", "/watch", String.mk ('v' :: '=' :: vid.data)⟩ "v"
      = some vid := by
    unfold searchParamsGet queryPairs
    show ((splitOnCharL '&' ('v' :: '=' :: vid.data)).filterMap _ |>.find? _).map _ = _
    rw [hq]
    simp only [List.filterMap_cons, List.filterMap_nil, hsp]
    rw [percentDecodeL_fixed vid.data hpct]
    simp only [List.find?]
    exact congrArg _ rfl
  unfold videoIdOf
  rw [hget]
  simp [hne]

/-- The canonical form produced by the video branch is a fixed point of
`normalizeUrl` whenever the id is made of round-trip-safe characters. -/
theorem normalizeUrl_canonical_fix (vid : String) (hne : vid ≠ "")
    (hsafe : vid.data.all safeIdChar = true) :
    normalizeUrl ("https://www.youtube.com/watch?v=" ++ vid) =
      "https://www.youtube.com/watch?v=" ++ vid := by
  have hspec : ∀ c ∈ vid.data, c ≠ '&' ∧ c ≠ '#' ∧ c ≠ '%' ∧ c ≠ '+' := by
    intro c hc
    exact safeIdChar_spec (List.all_eq_true.mp hsafe c hc)
  have hamp : '&' ∉ vid.data := fun h => (hspec _ h).1 rfl
  have hhash : '#' ∉ vid.data := fun h => (hspec _ h).2.1 rfl
  have hpct : ∀ c ∈ vid.data, c ≠ '%' ∧ c ≠ '+' :=
    fun c h => ⟨(hspec c h).2.2.1, (hspec c h).2.2.2⟩
  have hyt : ytBranch ("https://www.youtube.com/watch?v=" ++ vid) = true := by
    have h1 : hasSubstrL "youtube.com".data "https://www.youtube.com/watch?v=".data = true := by
      decide
    have h2 := hasSubstrL_append_right "youtube.com".data vid.data _ h1
    simp only [ytBranch, strIncludes, String.data_append]
    rw [Bool.or_eq_true]
    exact Or.inl h2
  unfold normalizeUrl
  rw [hyt, parseUrl_canonical vid hhash]
  simp only [videoIdOf_canonical vid hne hamp hpct, if_neg hne]
  simp

theorem findMatchingTagGo_eq_find? (topicLower : String) (libTags : List LibraryTagConfig)
    (applied : List String) :
    ∀ avail : List AvailTag,
      findMatchingTagGo topicLower libTags applied avail =
        avail.find? (tagEligible topicLower libTags applied) := by
  intro avail
  induction avail with
  | nil => rfl
  | cons tag rest ih =>
    by_cases hap : tag.id ∈ applied
    · simp [findMatchingTagGo, tagEligible, hap, List.find?_cons, ih]
    · cases hcfg : libTags.find? (fun t => toLowerStr t.name == toLowerStr tag.name) with
      | none => simp [findMatchingTagGo, tagEligible, hap, hcfg, List.find?_cons, ih]
      | some cfg =>
        by_cases hname : (strIncludes topicLower (toLowerStr tag.name) ||
            strIncludes (toLowerStr tag.name) topicLower) = true
        · simp [findMatchingTagGo, tagEligible, hap, hcfg, hname, List.find?_cons, ih]
        · by_cases hsyn : (cfg.synonyms.any
              (fun syn => strIncludes topicLower syn || strIncludes syn topicLower)) = true
          · simp [findMatchingTagGo, tagEligible, hap, hcfg, hname, hsyn, List.find?_cons, ih]
          · simp [findMatchingTagGo, tagEligible, hap, hcfg, hname, hsyn, List.find?_cons, ih]
theorem addSecondaryTags_nodup (lib : LibraryType) (avail : List AvailTag) :
    ∀ (ss : List String) (applied : List String), applied.Nodup →
      (addSecondaryTags lib avail applied ss).Nodup := by
  intro ss
  induction ss with
  | nil => intro applied h; exact h
  | cons s rest ih =>
    intro applied h
    by_cases hlen : applied.length ≥ 5
    · simpa [addSecondaryTags, hlen] using h
    · cases hm : findMatchingTag s lib avail applied with
      | none => simpa [addSecondaryTags, hlen, hm] using ih applied h
      | some t =>
        by_cases hmem : t.id ∈ applied
        · simpa [addSecondaryTags, hlen, hm, hmem] using ih applied h
        · have h2 : (applied ++ [t.id]).Nodup := by
            simp [List.nodup_append, h, hmem]
          simpa [addSecondaryTags, hlen, hm, hmem] using ih (applied ++ [t.id]) h2

theorem addSecondaryTags_length (lib : LibraryType) (avail : List AvailTag) :
    ∀ (ss : List String) (applied : List String), applied.length ≤ 5 →
      (addSecondaryTags lib avail applied ss).length ≤ 5 := by
  intro ss
  induction ss with
  | nil => intro applied h; exact h
  | cons s rest ih =>
    intro applied h
    by_cases hlen : applied.length ≥ 5
    · simpa [addSecondaryTags, hlen] using h
    · cases hm : findMatchingTag s lib avail applied with
      | none => simpa [addSecondaryTags, hlen, hm] using ih applied h
      | some t =>
        by_cases hmem : t.id ∈ applied
        · simpa [addSecondaryTags, hlen, hm, hmem] using ih applied h
        · have h2 : (applied ++ [t.id]).length ≤ 5 := by
            simp only [List.length_append, List.length_singleton]
            omega
          simpa [addSecondaryTags, hlen, hm, hmem] using ih (applied ++ [t.id]) h2

theorem addSecondaryTags_isPrefix (lib : LibraryType) (avail : List AvailTag) :
    ∀ (ss : List String) (applied : List String),
      applied <+: addSecondaryTags lib avail applied ss := by
  intro ss
  induction ss with
  | nil => intro applied; exact List.prefix_refl applied
  | cons s rest ih =>
    intro applied
    by_cases hlen : applied.length ≥ 5
    · simp [addSecondaryTags, hlen]
    · cases hm : findMatchingTag s lib avail applied with
      | none => simpa [addSecondaryTags, hlen, hm] using ih applied
      | some t =>
        by_cases hmem : t.id ∈ applied
        · simpa [addSecondaryTags, hlen, hm, hmem] using ih applied
        · have h2 := ih (applied ++ [t.id])
          have h1 : applied <+: applied ++ [t.id] := List.prefix_append applied [t.id]
          simpa [addSecondaryTags, hlen, hm, hmem] using h1.trans h2

/-- Frame of `recordError`: only `processingError` and `processingAttempts`
move; the published flag, classification columns and post identifiers are
untouched, and the attempt counter moves by exactly one. -/
theorem recordError_frame (r : RecRow) (e : String) :
    (recordError r e).processed = r.processed ∧
    (recordError r e).processedAt = r.processedAt ∧
    (recordError r e).libraryType = r.libraryType ∧
    (recordError r e).primaryTag = r.primaryTag ∧
    (recordError r e).secondaryTags = r.secondaryTags ∧
    (recordError r e).contentType = r.contentType ∧
    (recordError r e).topics = r.topics ∧
    (recordError r e).title = r.title ∧
    (recordError r e).description = r.description ∧
    (recordError r e).forumPostId = r.forumPostId ∧
    (recordError r e).forumThreadId = r.forumThreadId ∧
    (recordError r e).url = r.url ∧
    (recordError r e).processingError = some e ∧
    (recordError r e).processingAttempts = r.processingAttempts + 1 :=
  ⟨rfl, rfl, rfl, rfl, rfl, rfl, rfl, rfl, rfl, rfl, rfl, rfl, rfl, rfl⟩

/-- A create into a store with a fresh identity appends one row. -/
theorem dbCreate_fresh (db : DbState) (d : CreateRecData)
    (h : findByMessageId db d.originalMessageId = none) :
    dbCreate db d = Except.ok ({ rows := db.rows ++ [mkRow d] }, mkRow d) := by
  unfold dbCreate
  have hany : db.rows.any (fun r => r.originalMessageId == d.originalMessageId) = false := by
    rw [List.any_eq_false]
    intro r hr
    have := List.find?_eq_none.mp h r hr
    simpa using this
  rw [hany]
  rfl

/-- Updating the freshly appended row leaves the last element of the store
equal to the updated row. -/
theorem dbUpdateRow_append_last (db : DbState) (row : RecRow) (f : RecRow → RecRow) :
    (dbUpdateRow ⟨db.rows ++ [row]⟩ row.id f).rows.getLast? = some (f row) := by
  simp [dbUpdateRow, List.map_append]

/-- Row updates do not change the number of rows. -/
theorem dbUpdateRow_length (db : DbState) (i : String) (f : RecRow → RecRow) :
    (dbUpdateRow db i f).rows.length = db.rows.length := by
  simp [dbUpdateRow]

/-- Row updates through a url-preserving function do not change the stored
urls. -/
theorem dbUpdateRow_url_map (db : DbState) (i : String) (f : RecRow → RecRow)
    (hf : ∀ r, (f r).url = r.url) :
    (dbUpdateRow db i f).rows.map (·.url) = db.rows.map (·.url) := by
  simp only [dbUpdateRow, List.map_map]
  apply List.map_congr_left
  intro r _
  by_cases h : r.id = i <;> simp [h, hf]

/-- A bulk-import `processUrl` on an identity already present in the store
fails at `create` with the uniqueness violation and leaves the store
unchanged. -/
theorem bulkProcessUrl_dup (o : BulkOracles) (db : DbState) (url mid : String)
    (h : mid ∈ db.rows.map (·.originalMessageId)) :
    bulkProcessUrl o db url mid =
      (db, some "Unique constraint failed on the fields: (originalMessageId)") := by
  unfold bulkProcessUrl dbCreate
  have hany : db.rows.any (fun r => r.originalMessageId == mid) = true := by
    rw [List.any_eq_true]
    obtain ⟨r, hr, he⟩ := List.mem_map.mp h
    exact ⟨r, hr, by simp [he]⟩
  rw [hany]
  rfl

/-- Synthetic identities agree whenever the trimmed, lower-cased URLs
agree. -/
theorem syntheticId_congr (u1 u2 : String)
    (h : toLowerStr (trimStr u1) = toLowerStr (trimStr u2)) :
    generateSyntheticMessageId u1 = generateSyntheticMessageId u2 := by
  unfold generateSyntheticMessageId
  rw [h]

/-! ## Claim theorems -/

/-- C1: the claim says that a successful transcript retrieval yields an
envelope with `transcribed = true` and non-empty content. Running
`YouTubeExtractor.extract` with an info call and a transcript call that
both succeed (segments `hello`, `world`) shows the source returns the
joined transcript as content but `transcribed = false`: the local flag is
initialised to `false` and the success path never sets it, while the
fallback path and the logging make the intent (`true` on success)
unmistakable — a slip in the code, not in the claim. -/
theorem c1_transcribed_flag_false_on_success :
    (youtubeExtract
        (fun _ => Except.ok { title := some "Sample Video", shortDescription := some "desc" })
        (fun _ => Except.ok (some ["hello", "world"]))
        "https://youtu.be/dQw4w9WgXcQ").map
      (fun env => (env.metadata.transcribed, env.content)) =
      Except.ok (some false, "hello world") := by
  rfl

/-- C2 counterexample: a YouTube URL whose matched extractor fails with an
`ExtractionError` while the generic article extractor would succeed. The
coordinator invokes the article extractor zero times — not exactly once as
the claim states — and propagates the error directly. -/
theorem c2_no_generic_retry_counterexample :
    (coordinatorExtract
        { youtube := fun _ => Except.error
            (ExtractErr.contentExtraction "HTTP 404: Not Found"
              "https://www.youtube.com/watch?v=dQw4w9WgXcQ")
          audiobook := fun u => Except.ok (sampleEnv u)
          podcast := fun u => Except.ok (sampleEnv u)
          article := fun u => Except.ok (sampleEnv u) }
        "https://www.youtube.com/watch?v=dQw4w9WgXcQ").2.count Route.article = 0 ∧
    (coordinatorExtract
        { youtube := fun _ => Except.error
            (ExtractErr.contentExtraction "HTTP 404: Not Found"
              "https://www.youtube.com/watch?v=dQw4w9WgXcQ")
          audiobook := fun u => Except.ok (sampleEnv u)
          podcast := fun u => Except.ok (sampleEnv u)
          article := fun u => Except.ok (sampleEnv u) }
        "https://www.youtube.com/watch?v=dQw4w9WgXcQ").1 =
      Except.error (ExtractErr.contentExtraction "HTTP 404: Not Found"
        "https://www.youtube.com/watch?v=dQw4w9WgXcQ") := by
  exact ⟨by rfl, by rfl⟩

/-- C2 amended: when the matched non-generic extractor fails with an
`ExtractionError`, the coordinator does not invoke the generic article
extractor at all; it propagates the `ExtractionError` unchanged. The
article extractor is only the routing target for URLs no specific matcher
claims. -/
theorem c2_error_propagated_without_generic_retry (o : ExtractorOracles) (url m u2 : String)
    (hroute : routeOf (normalizeUrl url) ≠ Route.article)
    (hfail : runRoute o (routeOf (normalizeUrl url)) (normalizeUrl url) =
      Except.error (ExtractErr.contentExtraction m u2)) :
    coordinatorExtract o url =
      (Except.error (ExtractErr.contentExtraction m u2), [routeOf (normalizeUrl url)]) ∧
    Route.article ∉ [routeOf (normalizeUrl url)] := by
  constructor
  · unfold coordinatorExtract
    rw [hfail]
    rfl
  · intro hmem
    exact hroute (List.mem_singleton.mp hmem).symm

/-- Witness for the amended C2 theorem at a concrete failing YouTube URL. -/
theorem c2_error_propagated_without_generic_retry_witness :
    coordinatorExtract
        { youtube := fun _ => Except.error
            (ExtractErr.contentExtraction "HTTP 404: Not Found"
              "https://www.youtube.com/watch?v=dQw4w9WgXcQ")
          audiobook := fun u => Except.ok (sampleEnv u)
          podcast := fun u => Except.ok (sampleEnv u)
          article := fun u => Except.ok (sampleEnv u) }
        "https://youtu.be/dQw4w9WgXcQ" =
      (Except.error (ExtractErr.contentExtraction "HTTP 404: Not Found"
          "https://www.youtube.com/watch?v=dQw4w9WgXcQ"),
        [routeOf (normalizeUrl "https://youtu.be/dQw4w9WgXcQ")]) ∧
    Route.article ∉ [routeOf (normalizeUrl "https://youtu.be/dQw4w9WgXcQ")] :=
  c2_error_propagated_without_generic_retry _ _ _ _ (by decide) (by rfl)

/-- C3 counterexample: a completion response whose JSON object is accepted
by the synthesizer although its `primaryTag` is not one of the twenty tags
of the `libraryType` it names — acceptance checks only parseability. -/
theorem c3_out_of_vocabulary_tag_accepted :
    (analyzeResponseModel c3Response).isOk = true ∧
    (analyzeResponseModel c3Response).toOption.bind (fun j => jsonStrField j "libraryType") =
      some "growth" ∧
    (analyzeResponseModel c3Response).toOption.bind (fun j => jsonStrField j "primaryTag") =
      some "Underwater Basket Weaving" ∧
    (getLibraryTagNames LibraryType.growth).contains "Underwater Basket Weaving" = false := by
  refine ⟨rfl, rfl, rfl, by decide⟩

/-- C3 amended: the synthesizer accepts a completion response exactly when
the response text contains a brace-delimited candidate that `JSON.parse`
accepts, and it returns that parsed object verbatim; no vocabulary check
relates `primaryTag` to `libraryType`. -/
theorem c3_acceptance_checks_parse_only (text : String) (j : Json)
    (h : analyzeResponseModel text = Except.ok j) :
    ∃ cand, extractJsonCandidate text = some cand ∧ jsonParse cand = some j := by
  unfold analyzeResponseModel at h
  split at h
  · exact absurd h (by simp)
  · next cand hcand =>
    split at h
    · exact absurd h (by simp)
    · next j2 hp =>
      injection h with h2
      exact ⟨cand, hcand, by rw [hp, h2]⟩

/-- Witness for the amended C3 theorem at a minimal accepted response. -/
theorem c3_acceptance_checks_parse_only_witness :
    ∃ cand, extractJsonCandidate "\x7b\x7d" = some cand ∧
      jsonParse cand = some (Json.obj []) :=
  c3_acceptance_checks_parse_only "\x7b\x7d" (Json.obj []) rfl

/-- C4 counterexample: after a successful `markAsProcessed`, a subsequent
`updateMetadata` still changes a classification field and a repeated
`markAsProcessed` still changes the destination-post identifiers — the
store carries no guard, so the claimed immutability does not hold at the
store level. -/
theorem c4_post_publish_mutation_counterexample :
    (markAsProcessed c4Row "post-1" "thread-1" 100).processed = true ∧
    (applyUpdateMetadata (markAsProcessed c4Row "post-1" "thread-1" 100)
        { primaryTag := some "Sci-Fi" }).primaryTag ≠
      (markAsProcessed c4Row "post-1" "thread-1" 100).primaryTag ∧
    (markAsProcessed (markAsProcessed c4Row "post-1" "thread-1" 100)
        "post-2" "thread-2" 200).forumPostId ≠
      (markAsProcessed c4Row "post-1" "thread-1" 100).forumPostId := by
  refine ⟨rfl, ?_, ?_⟩ <;> decide

/-- C4 amended: of the store operations, only `recordError` is guaranteed
not to move the classification fields, the post identifiers, the published
flag or the timestamp of a published row (it touches exactly the error
string and the attempt counter); `updateMetadata` and `markAsProcessed`
carry no published-flag guard, so the spec invariant is the caller's
responsibility, not an enforced store property. -/
theorem c4_recordError_frame_after_publish (r : RecRow) (e : String)
    (h : r.processed = true) :
    (recordError r e).processed = true ∧
    (recordError r e).libraryType = r.libraryType ∧
    (recordError r e).primaryTag = r.primaryTag ∧
    (recordError r e).secondaryTags = r.secondaryTags ∧
    (recordError r e).forumPostId = r.forumPostId ∧
    (recordError r e).forumThreadId = r.forumThreadId ∧
    (recordError r e).processedAt = r.processedAt ∧
    (recordError r e).processingAttempts = r.processingAttempts + 1 :=
  ⟨h, rfl, rfl, rfl, rfl, rfl, rfl, rfl⟩

/-- Witness for the amended C4 theorem on a concrete published row. -/
theorem c4_recordError_frame_after_publish_witness :
    (recordError (markAsProcessed c4Row "post-1" "thread-1" 100) "late error").processed = true ∧
    (recordError (markAsProcessed c4Row "post-1" "thread-1" 100) "late error").libraryType =
      (markAsProcessed c4Row "post-1" "thread-1" 100).libraryType ∧
    (recordError (markAsProcessed c4Row "post-1" "thread-1" 100) "late error").primaryTag =
      (markAsProcessed c4Row "post-1" "thread-1" 100).primaryTag ∧
    (recordError (markAsProcessed c4Row "post-1" "thread-1" 100) "late error").secondaryTags =
      (markAsProcessed c4Row "post-1" "thread-1" 100).secondaryTags ∧
    (recordError (markAsProcessed c4Row "post-1" "thread-1" 100) "late error").forumPostId =
      (markAsProcessed c4Row "post-1" "thread-1" 100).forumPostId ∧
    (recordError (markAsProcessed c4Row "post-1" "thread-1" 100) "late error").forumThreadId =
      (markAsProcessed c4Row "post-1" "thread-1" 100).forumThreadId ∧
    (recordError (markAsProcessed c4Row "post-1" "thread-1" 100) "late error").processedAt =
      (markAsProcessed c4Row "post-1" "thread-1" 100).processedAt ∧
    (recordError (markAsProcessed c4Row "post-1" "thread-1" 100) "late error").processingAttempts =
      (markAsProcessed c4Row "post-1" "thread-1" 100).processingAttempts + 1 :=
  c4_recordError_frame_after_publish (markAsProcessed c4Row "post-1" "thread-1" 100)
    "late error" rfl

/-- C5 counterexample: for the suggestion `book` against the athenaeum
library with configured tags `Literature Analysis` then `Book`, the source
resolver returns `Literature Analysis` (its synonym `book analysis`
contains `book` and it comes first in configured order), while the claimed
global precedence — exact match first across all tags — would return the
exact match `Book`. -/
theorem c5_global_precedence_counterexample :
    findMatchingTag "book" LibraryType.athenaeum
        [⟨"Literature Analysis", "tag-lit"⟩, ⟨"Book", "tag-book"⟩] [] =
      some ⟨"Literature Analysis", "tag-lit"⟩ ∧
    specFindMatchingTag "book" LibraryType.athenaeum
        [⟨"Literature Analysis", "tag-lit"⟩, ⟨"Book", "tag-book"⟩] [] =
      some ⟨"Book", "tag-book"⟩ := by
  exact ⟨by decide, by decide⟩

/-- C5 amended: the resolver walks the destination's configured tags in
their list order and returns the first tag that is not already applied,
appears in the library config, and matches the suggestion by label
containment (in either direction, subsuming exact equality) or by synonym
containment — so per-tag order, not the claimed three-stage global
precedence, decides ties; an already-applied tag id is never returned. -/
theorem c5_first_match_in_configured_order :
    (∀ (topic : String) (lib : LibraryType) (avail : List AvailTag) (applied : List String),
      findMatchingTag topic lib avail applied =
        avail.find? (tagEligible (toLowerStr topic) (libraryTags lib) applied)) ∧
    (∀ (topic : String) (lib : LibraryType) (avail : List AvailTag) (applied : List String)
      (t : AvailTag), findMatchingTag topic lib avail applied = some t →
        t.id ∉ applied ∧ t ∈ avail) := by
  constructor
  · intro topic lib avail applied
    exact findMatchingTagGo_eq_find? (toLowerStr topic) (libraryTags lib) applied avail
  · intro topic lib avail applied t h
    unfold findMatchingTag at h
    rw [findMatchingTagGo_eq_find?] at h
    refine ⟨?_, List.mem_of_find?_eq_some h⟩
    have hp := List.find?_some h
    unfold tagEligible at hp
    rw [Bool.and_eq_true] at hp
    intro hmem
    simp [hmem] at hp

/-- Witness for the amended C5 theorem at a concrete resolution. -/
theorem c5_first_match_in_configured_order_witness :
    (findMatchingTag "fantasy" LibraryType.fiction [⟨"Fantasy", "f1"⟩] [] =
      [(⟨"Fantasy", "f1"⟩ : AvailTag)].find?
        (tagEligible (toLowerStr "fantasy") (libraryTags LibraryType.fiction) [])) ∧
    ("f1" ∉ ([] : List String) ∧
      (⟨"Fantasy", "f1"⟩ : AvailTag) ∈ [(⟨"Fantasy", "f1"⟩ : AvailTag)]) :=
  ⟨c5_first_match_in_configured_order.1 "fantasy" LibraryType.fiction [⟨"Fantasy", "f1"⟩] [],
   c5_first_match_in_configured_order.2 "fantasy" LibraryType.fiction
     [⟨"Fantasy", "f1"⟩] [] ⟨"Fantasy", "f1"⟩ (by decide)⟩

/-- C6: the applied-tag list built for a forum post has no duplicate ids,
never exceeds the five-tag platform ceiling, and starts with the resolved
primary tag whenever the primary suggestion resolves. -/
theorem c6_applied_tags_invariants (primaryTag : String) (secondaryTags : List String)
    (lib : LibraryType) (avail : List AvailTag) :
    (buildAppliedTags primaryTag secondaryTags lib avail).Nodup ∧
    (buildAppliedTags primaryTag secondaryTags lib avail).length ≤ 5 ∧
    (∀ t : AvailTag, findMatchingTag primaryTag lib avail [] = some t →
      (buildAppliedTags primaryTag secondaryTags lib avail).head? = some t.id) := by
  unfold buildAppliedTags
  cases hm : findMatchingTag primaryTag lib avail [] with
  | none =>
    simp only [hm]
    refine ⟨addSecondaryTags_nodup lib avail _ [] (by simp),
      addSecondaryTags_length lib avail _ [] (by simp), ?_⟩
    intro t ht
    cases ht
  | some t0 =>
    simp only [hm]
    refine ⟨addSecondaryTags_nodup lib avail _ [t0.id] (by simp),
      addSecondaryTags_length lib avail _ [t0.id] (by simp), ?_⟩
    intro t ht
    injection ht with ht2
    subst ht2
    obtain ⟨rest, hrest⟩ := addSecondaryTags_isPrefix lib avail secondaryTags [t0.id]
    rw [← hrest]
    rfl

/-- Witness for the C6 theorem at a concrete tag assembly. -/
theorem c6_applied_tags_invariants_witness :
    (buildAppliedTags "Fantasy" ["Sci-Fi"] LibraryType.fiction
        [⟨"Fantasy", "f1"⟩, ⟨"Sci-Fi", "f2"⟩]).Nodup ∧
    (buildAppliedTags "Fantasy" ["Sci-Fi"] LibraryType.fiction
        [⟨"Fantasy", "f1"⟩, ⟨"Sci-Fi", "f2"⟩]).length ≤ 5 ∧
    (∀ t : AvailTag,
      findMatchingTag "Fantasy" LibraryType.fiction [⟨"Fantasy", "f1"⟩, ⟨"Sci-Fi", "f2"⟩] [] =
        some t →
      (buildAppliedTags "Fantasy" ["Sci-Fi"] LibraryType.fiction
          [⟨"Fantasy", "f1"⟩, ⟨"Sci-Fi", "f2"⟩]).head? = some t.id) :=
  c6_applied_tags_invariants "Fantasy" ["Sci-Fi"] LibraryType.fiction
    [⟨"Fantasy", "f1"⟩, ⟨"Sci-Fi", "f2"⟩]

set_option maxRecDepth 20000 in
/-- C7 counterexample: two import rows that differ only by case and
surrounding whitespace do map to the same synthetic identity, but when
neither pre-exists in the store both pass the duplicate filter (which only
consults the store): the first is processed and the second fails its
`create` with the uniqueness violation, surfacing among the failed URLs —
not as a skipped duplicate. -/
theorem c7_same_batch_duplicate_counterexample :
    (runBulkImportModel
        { analyze := fun _ => Except.ok (sampleMeta, none)
          post := fun _ => Except.ok ("post-1", "thread-1") }
        ⟨[]⟩ ["https://Example.com/Book", "  https://example.com/book"]).skippedDuplicates = 0 ∧
    (runBulkImportModel
        { analyze := fun _ => Except.ok (sampleMeta, none)
          post := fun _ => Except.ok ("post-1", "thread-1") }
        ⟨[]⟩ ["https://Example.com/Book", "  https://example.com/book"]).processedCount = 1 ∧
    (runBulkImportModel
        { analyze := fun _ => Except.ok (sampleMeta, none)
          post := fun _ => Except.ok ("post-1", "thread-1") }
        ⟨[]⟩ ["https://Example.com/Book", "  https://example.com/book"]).failedUrls =
      ["https://example.com/book"] ∧
    generateSyntheticMessageId "https://Example.com/Book" =
      generateSyntheticMessageId "  https://example.com/book" := by
  refine ⟨by decide, by decide, by decide, by decide⟩

/-- C7 amended: URLs that agree after trimming and lower-casing share one
synthetic identity, and a row whose identity already exists in the store is
rejected by `create` with the uniqueness violation, leaving the store
unchanged; the duplicate filter of a bulk run, however, consults only the
pre-run store, so within one batch the second of two colliding fresh rows
is recorded as failed, not skipped. -/
theorem c7_duplicate_handling :
    (∀ u1 u2 : String, toLowerStr (trimStr u1) = toLowerStr (trimStr u2) →
      generateSyntheticMessageId u1 = generateSyntheticMessageId u2) ∧
    (∀ (o : BulkOracles) (db : DbState) (url mid : String),
      mid ∈ db.rows.map (·.originalMessageId) →
      bulkProcessUrl o db url mid =
        (db, some "Unique constraint failed on the fields: (originalMessageId)")) :=
  ⟨fun u1 u2 h => syntheticId_congr u1 u2 h,
   fun o db url mid h => bulkProcessUrl_dup o db url mid h⟩

/-- Witness for the amended C7 theorem: a concrete identity collision and a
concrete pre-existing identity rejected at create. -/
theorem c7_duplicate_handling_witness :
    generateSyntheticMessageId "https://A.com/Item " =
      generateSyntheticMessageId "https://a.com/item" ∧
    bulkProcessUrl
        { analyze := fun _ => Except.ok (sampleMeta, none)
          post := fun _ => Except.ok ("post-1", "thread-1") }
        ⟨[mkRow { originalMessageId := generateSyntheticMessageId "https://x.com/a"
                  originalChannelId := "recommendations-channel"
                  originalContent := "Bulk import: https://x.com/a"
                  recommenderId := "bulk-import"
                  recommenderName := "Bulk Import"
                  url := "https://x.com/a" }]⟩
        "https://x.com/a" (generateSyntheticMessageId "https://x.com/a") =
      (⟨[mkRow { originalMessageId := generateSyntheticMessageId "https://x.com/a"
                 originalChannelId := "recommendations-channel"
                 originalContent := "Bulk import: https://x.com/a"
                 recommenderId := "bulk-import"
                 recommenderName := "Bulk Import"
                 url := "https://x.com/a" }]⟩,
        some "Unique constraint failed on the fields: (originalMessageId)") :=
  ⟨c7_duplicate_handling.1 "https://A.com/Item " "https://a.com/item" (by decide),
   c7_duplicate_handling.2 _ _ "https://x.com/a" (generateSyntheticMessageId "https://x.com/a")
     (by simp [mkRow])⟩

/-- C8: when synthesis fails (for example the completion response holds no
parseable object), the processor records the error on the freshly created
row: the row stays unpublished with no classification or post identifiers,
its attempt counter is exactly one, the error string is stored, and the
caller gets back `none`; moreover `recordError` itself moves only the
error string and the attempt counter (by exactly one). -/
theorem c8_synthesis_failure_records_error (o : ProcOracles) (db : DbState) (msg : MsgIn)
    (u : String) (us : List String) (e : String)
    (hurls : extractURLs msg.content = u :: us)
    (hfind : findByMessageId db msg.id = none)
    (hsynth : synthOutcome o msg u = Except.error e) :
    (processRecommendationModel o db msg).2 = none ∧
    (processRecommendationModel o db msg).1.rows.length = db.rows.length + 1 ∧
    (∃ r : RecRow, (processRecommendationModel o db msg).1.rows.getLast? = some r ∧
      r.processingAttempts = 1 ∧ r.processingError = some e ∧ r.processed = false ∧
      r.forumPostId = none ∧ r.forumThreadId = none ∧
      r.libraryType = none ∧ r.primaryTag = none ∧ r.url = u) ∧
    (∀ (r2 : RecRow) (e2 : String),
      (recordError r2 e2).processed = r2.processed ∧
      (recordError r2 e2).libraryType = r2.libraryType ∧
      (recordError r2 e2).primaryTag = r2.primaryTag ∧
      (recordError r2 e2).secondaryTags = r2.secondaryTags ∧
      (recordError r2 e2).forumPostId = r2.forumPostId ∧
      (recordError r2 e2).forumThreadId = r2.forumThreadId ∧
      (recordError r2 e2).title = r2.title ∧
      (recordError r2 e2).processingError = some e2 ∧
      (recordError r2 e2).processingAttempts = r2.processingAttempts + 1) := by
  have hmodel : processRecommendationModel o db msg =
      (dbUpdateRow
        { rows := db.rows ++
            [mkRow { originalMessageId := msg.id, originalChannelId := msg.channelId,
                     originalContent := msg.content, recommenderId := msg.authorId,
                     recommenderName := msg.authorTag, url := u }] }
        (mkRow { originalMessageId := msg.id, originalChannelId := msg.channelId,
                 originalContent := msg.content, recommenderId := msg.authorId,
                 recommenderName := msg.authorTag, url := u }).id
        (fun r => recordError r e), none) := by
    unfold processRecommendationModel
    rw [hurls, hfind]
    dsimp only
    rw [dbCreate_fresh db _ hfind]
    dsimp only
    rw [hsynth]
  refine ⟨by rw [hmodel], ?_, ?_, ?_⟩
  · rw [hmodel]
    simp [dbUpdateRow_length]
  · refine ⟨recordError (mkRow
      { originalMessageId := msg.id, originalChannelId := msg.channelId,
        originalContent := msg.content, recommenderId := msg.authorId,
        recommenderName := msg.authorTag, url := u }) e,
      ?_, rfl, rfl, rfl, rfl, rfl, rfl, rfl, rfl⟩
    rw [hmodel]
    exact dbUpdateRow_append_last db _ _
  · intro r2 e2
    exact ⟨rfl, rfl, rfl, rfl, rfl, rfl, rfl, rfl, rfl⟩

/-- C10: the processor handles only the first URL extracted from the
message: exactly one row is created, that row stores the first URL, and
no row is created for any later URL in the same message. -/
theorem c10_first_url_only (o : ProcOracles) (db : DbState) (msg : MsgIn)
    (u : String) (us : List String)
    (hurls : extractURLs msg.content = u :: us)
    (hfind : findByMessageId db msg.id = none) :
    (processRecommendationModel o db msg).1.rows.map (·.url) =
      db.rows.map (·.url) ++ [u] ∧
    (processRecommendationModel o db msg).1.rows.length = db.rows.length + 1 ∧
    (∀ p : ProcessedRecOut, (processRecommendationModel o db msg).2 = some p → p.url = u) := by
  have hbase : ∀ f : RecRow → RecRow, (∀ r, (f r).url = r.url) → ∀ i,
      (dbUpdateRow
        { rows := db.rows ++
            [mkRow { originalMessageId := msg.id, originalChannelId := msg.channelId,
                     originalContent := msg.content, recommenderId := msg.authorId,
                     recommenderName := msg.authorTag, url := u }] } i f).rows.map (·.url) =
        db.rows.map (·.url) ++ [u] := by
    intro f hf i
    rw [dbUpdateRow_url_map _ i f hf]
    simp [mkRow]
  unfold processRecommendationModel
  rw [hurls, hfind]
  dsimp only
  rw [dbCreate_fresh db _ hfind]
  dsimp only
  cases hsynth : synthOutcome o msg u with
  | error e =>
    dsimp only
    refine ⟨hbase (fun r => recordError r e) (fun r => rfl) _,
      by simp [dbUpdateRow_length], ?_⟩
    intro p hp
    cases hp
  | ok mt =>
    obtain ⟨m, thumb⟩ := mt
    dsimp only
    refine ⟨hbase (fun r => applyUpdateMetadata r (metaToUpdate m thumb)) (fun r => rfl) _,
      by simp [dbUpdateRow_length], ?_⟩
    intro p hp
    injection hp with hp2
    rw [← hp2]

/-- Witness for the C8 theorem: a concrete message, an extraction that
succeeds and a synthesis call that finds no JSON in the response. -/
theorem c8_synthesis_failure_records_error_witness :
    (processRecommendationModel
        { extract := fun u2 => Except.ok (sampleEnv u2)
          analyzeContent := fun _ _ _ => Except.error "No JSON found in Claude response"
          analyzeUrl := fun _ _ _ => Except.error "No JSON found in Claude response" }
        ⟨[]⟩
        { id := "m-1", channelId := "chan-1", content := "look https://example.com/alpha"
          authorId := "u-1", authorTag := "User#1" }).2 = none ∧
    (processRecommendationModel
        { extract := fun u2 => Except.ok (sampleEnv u2)
          analyzeContent := fun _ _ _ => Except.error "No JSON found in Claude response"
          analyzeUrl := fun _ _ _ => Except.error "No JSON found in Claude response" }
        ⟨[]⟩
        { id := "m-1", channelId := "chan-1", content := "look https://example.com/alpha"
          authorId := "u-1", authorTag := "User#1" }).1.rows.length =
      (⟨[]⟩ : DbState).rows.length + 1 ∧
    (∃ r : RecRow,
      (processRecommendationModel
          { extract := fun u2 => Except.ok (sampleEnv u2)
            analyzeContent := fun _ _ _ => Except.error "No JSON found in Claude response"
            analyzeUrl := fun _ _ _ => Except.error "No JSON found in Claude response" }
          ⟨[]⟩
          { id := "m-1", channelId := "chan-1", content := "look https://example.com/alpha"
            authorId := "u-1", authorTag := "User#1" }).1.rows.getLast? = some r ∧
      r.processingAttempts = 1 ∧
      r.processingError = some "No JSON found in Claude response" ∧
      r.processed = false ∧ r.forumPostId = none ∧ r.forumThreadId = none ∧
      r.libraryType = none ∧ r.primaryTag = none ∧ r.url = "https://example.com/alpha") ∧
    (∀ (r2 : RecRow) (e2 : String),
      (recordError r2 e2).processed = r2.processed ∧
      (recordError r2 e2).libraryType = r2.libraryType ∧
      (recordError r2 e2).primaryTag = r2.primaryTag ∧
      (recordError r2 e2).secondaryTags = r2.secondaryTags ∧
      (recordError r2 e2).forumPostId = r2.forumPostId ∧
      (recordError r2 e2).forumThreadId = r2.forumThreadId ∧
      (recordError r2 e2).title = r2.title ∧
      (recordError r2 e2).processingError = some e2 ∧
      (recordError r2 e2).processingAttempts = r2.processingAttempts + 1) :=
  c8_synthesis_failure_records_error _ _ _ "https://example.com/alpha" [] _
    (by rfl) (by rfl) (by rfl)

/-- Witness for the C10 theorem: a message carrying two URLs; the stored
url-column gains exactly the first one. -/
theorem c10_first_url_only_witness :
    (processRecommendationModel
        { extract := fun u2 => Except.ok (sampleEnv u2)
          analyzeContent := fun _ _ _ => Except.ok sampleMeta
          analyzeUrl := fun _ _ _ => Except.ok sampleMeta }
        ⟨[]⟩
        { id := "m-2", channelId := "chan-1", content := "see https://a.com/x or https://b.com/y"
          authorId := "u-1", authorTag := "User#1" }).1.rows.map (·.url) =
      (⟨[]⟩ : DbState).rows.map (·.url) ++ ["https://a.com/x"] ∧
    (processRecommendationModel
        { extract := fun u2 => Except.ok (sampleEnv u2)
          analyzeContent := fun _ _ _ => Except.ok sampleMeta
          analyzeUrl := fun _ _ _ => Except.ok sampleMeta }
        ⟨[]⟩
        { id := "m-2", channelId := "chan-1", content := "see https://a.com/x or https://b.com/y"
          authorId := "u-1", authorTag := "User#1" }).1.rows.length =
      (⟨[]⟩ : DbState).rows.length + 1 ∧
    (∀ p : ProcessedRecOut,
      (processRecommendationModel
          { extract := fun u2 => Except.ok (sampleEnv u2)
            analyzeContent := fun _ _ _ => Except.ok sampleMeta
            analyzeUrl := fun _ _ _ => Except.ok sampleMeta }
          ⟨[]⟩
          { id := "m-2", channelId := "chan-1", content := "see https://a.com/x or https://b.com/y"
            authorId := "u-1", authorTag := "User#1" }).2 = some p →
      p.url = "https://a.com/x") :=
  c10_first_url_only _ _ _ "https://a.com/x" ["https://b.com/y"] (by rfl) (by rfl)

/-- C9 counterexample: for `https://youtu.be/a&b` the first normalization
extracts the path segment `a&b` as the video id and emits
`https://www.youtube.com/watch?v=a&b`; the second normalization re-parses
that query, reads `v = a`, and emits `https://www.youtube.com/watch?v=a` —
so `normalizeUrl` is not idempotent on every URL string. -/
theorem c9_normalizeUrl_not_idempotent :
    normalizeUrl (normalizeUrl "https://youtu.be/a&b") ≠
      normalizeUrl "https://youtu.be/a&b" := by
  decide

/-- C9 amended: `normalizeUrl` is idempotent on every URL the video branch
does not touch, and on every tame video-platform URL — an explicit http(s)
protocol followed only by characters WHATWG parsing keeps verbatim, with an
extracted id that is not a relative dot segment. Outside the tame domain a
second normalization can differ: an id carrying a query delimiter is
truncated on re-parse (the counterexample), an id with a space or percent
escape is rewritten by path encoding, and opaque-path forms such as
`youtu.be:a&b` re-parse differently again. -/
theorem c9_normalizeUrl_idempotent_on_safe_inputs (u : String) (h : normSafe u = true) :
    normalizeUrl (normalizeUrl u) = normalizeUrl u := by
  by_cases hyt : ytBranch u = true
  · unfold normSafe at h
    rw [hyt] at h
    simp only [if_true, Bool.and_eq_true] at h
    obtain ⟨htame, hrest⟩ := h
    have hp : (strStartsWith u "http://" || strStartsWith u "https://") = true :=
      urlTame_protocol u htame
    cases hparse : parseUrl u with
    | none =>
      have h1 : normalizeUrl u = u := by
        unfold normalizeUrl
        rw [hyt, hparse]
        simp
      rw [h1, h1]
    | some uo =>
      rw [hparse] at hrest
      simp only [Bool.and_eq_true] at hrest
      by_cases hv : videoIdOf uo = ""
      · have h1 : normalizeUrl u = u := by
          unfold normalizeUrl
          rw [hyt, hparse]
          simp only [if_pos hv]
          exact ensureProtocol_of_protocol u hp
        rw [h1, h1]
      · have hsafe : (videoIdOf uo).data.all safeIdChar = true := hrest.2
        have h1 : normalizeUrl u = "https://www.youtube.com/watch?v=" ++ videoIdOf uo := by
          unfold normalizeUrl
          rw [hyt, hparse]
          simp only [if_neg hv]
          simp
        rw [h1]
        exact normalizeUrl_canonical_fix (videoIdOf uo) hv hsafe
  · have hb : ytBranch u = false := by
      revert hyt
      cases ytBranch u <;> simp
    have h1 : normalizeUrl u = ensureProtocol u := by
      unfold normalizeUrl
      rw [hb]
      simp
    by_cases hp : (strStartsWith u "http://" || strStartsWith u "https://") = true
    · rw [h1, ensureProtocol_of_protocol u hp, h1, ensureProtocol_of_protocol u hp]
    · have he : ensureProtocol u = "https://" ++ u := by
        unfold ensureProtocol
        rw [if_neg hp]
      rw [h1, he]
      have hb2 : ytBranch ("https://" ++ u) = false := by
        rw [ytBranch_prepend_protocol]
        exact hb
      have h2 : normalizeUrl ("https://" ++ u) = ensureProtocol ("https://" ++ u) := by
        unfold normalizeUrl
        rw [hb2]
        simp
      rw [h2]
      apply ensureProtocol_of_protocol
      rw [Bool.or_eq_true]
      exact Or.inr (strStartsWith_append_self "https://" u)

/-- Witness for the amended C9 theorem: a real video URL is safe and its
normalization is a fixed point of a second normalization. -/
theorem c9_normalizeUrl_idempotent_witness :
    normSafe "https://youtu.be/dQw4w9WgXcQ" = true ∧
      normalizeUrl (normalizeUrl "https://youtu.be/dQw4w9WgXcQ") =
        normalizeUrl "https://youtu.be/dQw4w9WgXcQ" :=
  ⟨by decide, c9_normalizeUrl_idempotent_on_safe_inputs "https://youtu.be/dQw4w9WgXcQ" (by decide)⟩

end RefactorBot
